import Mathlib

/-!
Verification of the push-activity reconciliation engine
(`peopleclaychecking/backend/push_activity.py`).

The SQLite tables created by `PushActivityDatabase._init_database` are
embedded as Lean lists of rows; every row field of the schema is kept.
Timestamps (`datetime.now().isoformat()` on the Python side,
`CURRENT_TIMESTAMP` on the SQLite side) are modelled as a single `Nat`
clock value supplied to each operation; SQLite compares the stored ISO
strings lexicographically, which on these strings coincides with
chronological order, so `Nat` comparison is the faithful order.
Each SQL statement that can violate a constraint (a `PRIMARY KEY`
conflict on `INSERT`, or an `INSERT` that names a column absent from the
table) is embedded as an `Except`-returning step; a Python
`try/except` block that swallows the error and closes the connection
without `commit` is embedded by returning the unchanged state
(SQLite rolls the open transaction back in that case).
-/

namespace PushActivity

/-- Row of the `campaigns` table (`_init_database`, first CREATE TABLE). -/
structure CampaignRow where
  id : String
  name : String
  status : String
  createdAt : Nat
  lastUpdated : Nat
  isActive : Bool
deriving Repr, DecidableEq

/-- Row of the `leads` table (`_init_database`, second CREATE TABLE). -/
structure LeadRow where
  id : String
  campaignId : String
  email : Option String
  firstName : Option String
  lastName : Option String
  companyName : Option String
  jobTitle : Option String
  linkedinUrl : Option String
  state : Option String
  stateSystem : Option String
  createdAt : Nat
  lastUpdated : Nat
  isActive : Bool
deriving Repr, DecidableEq

/-- Row of the `change_log` table (`_init_database`, third CREATE TABLE). -/
structure ChangeEntry where
  id : Nat
  changeType : String
  campaignId : Option String := none
  campaignName : Option String := none
  leadId : Option String := none
  leadEmail : Option String := none
  leadCompany : Option String := none
  oldValue : Option String := none
  newValue : Option String := none
  timestamp : Nat
deriving Repr, DecidableEq

/-- Row of the `sync_history` table (`_init_database`, fourth CREATE TABLE). -/
structure SyncRow where
  id : Nat
  syncType : String
  campaignsProcessed : Nat := 0
  leadsProcessed : Nat := 0
  campaignsAdded : Nat := 0
  campaignsRemoved : Nat := 0
  leadsAdded : Nat := 0
  leadsRemoved : Nat := 0
  leadsUpdated : Nat := 0
  timestamp : Nat
  durationSeconds : Option Nat := none
deriving Repr, DecidableEq

/-- Row of the `pushed_companies` table (`_init_database`, fifth CREATE
TABLE); `UNIQUE(campaign_id, company_name)`. -/
structure PushedRow where
  campaignId : String
  companyName : String
  pushedAt : Nat
deriving Repr, DecidableEq

/-- The whole SQLite database state. -/
structure DB where
  campaigns : List CampaignRow := []
  leads : List LeadRow := []
  changeLog : List ChangeEntry := []
  syncHistory : List SyncRow := []
  pushedCompanies : List PushedRow := []
deriving Repr, DecidableEq

/-- A campaign record of the external snapshot (`campaign['_id']`,
`campaign['name']`, `campaign['status']` are the fields
`update_campaigns` reads). -/
structure CampaignSnap where
  id : String
  name : String
  status : String
deriving Repr, DecidableEq

/-- A lead record of the external snapshot, with the fields
`track_lead_changes` and the push operations read; `_id` is always
present, the rest are accessed with `.get(...)`. -/
structure LeadSnap where
  id : String
  email : Option String := none
  firstName : Option String := none
  lastName : Option String := none
  companyName : Option String := none
  jobTitle : Option String := none
  linkedinUrl : Option String := none
  state : Option String := none
  stateSystem : Option String := none
deriving Repr, DecidableEq

/-- The column set of the `change_log` table as created by
`_init_database`.  An `INSERT` naming any other column is an
`OperationalError` in SQLite. -/
def changeLogColumns : List String :=
  ["id", "change_type", "campaign_id", "campaign_name", "lead_id",
   "lead_email", "lead_company", "old_value", "new_value", "change_timestamp"]

/-- Embeds `INSERT INTO change_log (cols…) VALUES (…)`: fails when a named
column is not part of the schema, otherwise appends the new row with the
next autoincrement id. -/
def insertChangeLog (cols : List String) (mk : Nat → ChangeEntry)
    (log : List ChangeEntry) : Except String (List ChangeEntry) :=
  if cols.all changeLogColumns.contains then
    .ok (log ++ [mk (log.length + 1)])
  else
    .error "table change_log has no such column"

/-- Embeds `INSERT INTO campaigns (id, …)`: `id` is the PRIMARY KEY, so the
insert fails if any stored row (active or not) already carries it. -/
def insertCampaignRow (row : CampaignRow) (rows : List CampaignRow) :
    Except String (List CampaignRow) :=
  if rows.any (fun r => r.id == row.id) then
    .error "UNIQUE constraint failed: campaigns.id"
  else
    .ok (rows ++ [row])

/-- Embeds `INSERT INTO leads (id, …)`: `id` is the PRIMARY KEY. -/
def insertLeadRow (row : LeadRow) (rows : List LeadRow) :
    Except String (List LeadRow) :=
  if rows.any (fun r => r.id == row.id) then
    .error "UNIQUE constraint failed: leads.id"
  else
    .ok (rows ++ [row])

/-- Embeds `SELECT … FROM campaigns WHERE is_active = 1` (row order of the
table scan). -/
def activeCampaigns (db : DB) : List CampaignRow :=
  db.campaigns.filter (fun r => r.isActive)

/-- The id set of the active campaign rows (keys of the
`current_campaigns` dict in `update_campaigns`, line 193). -/
def currentCampaignIds (db : DB) : Finset String :=
  ((activeCampaigns db).map (fun r => r.id)).toFinset

/-- Embeds `new_campaign_ids = {campaign['_id'] for campaign in new_campaigns}`
(line 196). -/
def snapshotIds (snap : List CampaignSnap) : Finset String :=
  (snap.map (fun c => c.id)).toFinset

/-- Embeds `added_campaigns = new_campaign_ids - current_campaign_ids`
(line 200). -/
def addedCampaigns (snap : List CampaignSnap) (db : DB) : Finset String :=
  snapshotIds snap \ currentCampaignIds db

/-- Embeds `removed_campaigns = current_campaign_ids - new_campaign_ids`
(line 201). -/
def removedCampaigns (snap : List CampaignSnap) (db : DB) : Finset String :=
  currentCampaignIds db \ snapshotIds snap

/-- First active row with the given campaign id — the entry the
`current_campaigns` dict holds for that id. -/
def lookupActive (db : DB) (i : String) : Option CampaignRow :=
  db.campaigns.find? (fun r => r.isActive && r.id == i)

/-- Embeds `json.dumps({'name': …, 'status': …})` as recorded in
`campaign_updated` change-log entries. -/
def jsonNameStatus (name status : String) : String :=
  "\x7b\"name\": \"" ++ name ++ "\", \"status\": \"" ++ status ++ "\"\x7d"

/-- The campaign row inserted for a snapshot entry (lines 215-224):
`is_active` takes its schema default 1. -/
def newCampaignRow (now : Nat) (c : CampaignSnap) : CampaignRow :=
  { id := c.id, name := c.name, status := c.status,
    createdAt := now, lastUpdated := now, isActive := true }

/-- The `for campaign in new_campaigns: if campaign['_id'] in
added_campaigns` loop of `update_campaigns` (lines 213-233): insert the
campaign row, log `campaign_added`, count. -/
def addLoop (added : Finset String) (now : Nat) :
    List CampaignSnap → DB → Nat → Except String (DB × Nat)
  | [], db, n => .ok (db, n)
  | c :: rest, db, n =>
    if c.id ∈ added then
      match insertCampaignRow (newCampaignRow now c) db.campaigns with
      | .error e => .error e
      | .ok rows =>
        match insertChangeLog ["change_type", "campaign_id", "campaign_name"]
          (fun k => { id := k, changeType := "campaign_added",
                      campaignId := some c.id, campaignName := some c.name,
                      timestamp := now }) db.changeLog with
        | .error e => .error e
        | .ok log =>
          addLoop added now rest { db with campaigns := rows, changeLog := log } (n + 1)
    else
      addLoop added now rest db n

/-- The `for campaign_id in removed_campaigns` loop (lines 236-251):
soft-delete the row (`is_active = 0`, `last_updated` refreshed), log
`campaign_removed` with the name held by the `current_campaigns` dict. -/
def removeLoop (now : Nat) (nameOf : String → Option String) :
    List String → DB → Nat → Except String (DB × Nat)
  | [], db, n => .ok (db, n)
  | cid :: rest, db, n =>
    let rows := db.campaigns.map (fun r =>
      if r.id = cid then { r with isActive := false, lastUpdated := now } else r)
    match insertChangeLog ["change_type", "campaign_id", "campaign_name"]
      (fun k => { id := k, changeType := "campaign_removed",
                  campaignId := some cid, campaignName := nameOf cid,
                  timestamp := now }) db.changeLog with
    | .error e => .error e
    | .ok log =>
      removeLoop now nameOf rest { db with campaigns := rows, changeLog := log } (n + 1)

/-- The `for campaign in new_campaigns: if campaign['_id'] in
current_campaign_ids` loop (lines 254-284): when name or status differs
from the dict captured at the start, update the row in place and log
`campaign_updated`. -/
def updLoop (current : List CampaignRow) (now : Nat) :
    List CampaignSnap → DB → Nat → Except String (DB × Nat)
  | [], db, n => .ok (db, n)
  | c :: rest, db, n =>
    match current.find? (fun r => r.id == c.id) with
    | none => updLoop current now rest db n
    | some cur =>
      if cur.name ≠ c.name ∨ cur.status ≠ c.status then
        let rows := db.campaigns.map (fun r =>
          if r.id = c.id then
            { r with name := c.name, status := c.status, lastUpdated := now }
          else r)
        match insertChangeLog
          ["change_type", "campaign_id", "campaign_name", "old_value", "new_value"]
          (fun k => { id := k, changeType := "campaign_updated",
                      campaignId := some c.id, campaignName := some c.name,
                      oldValue := some (jsonNameStatus cur.name cur.status),
                      newValue := some (jsonNameStatus c.name c.status),
                      timestamp := now }) db.changeLog with
        | .error e => .error e
        | .ok log =>
          updLoop current now rest { db with campaigns := rows, changeLog := log } (n + 1)
      else
        updLoop current now rest db n

/-- The stats dict returned by `PushActivityDatabase.update_campaigns`
(lines 203-210; `company_count_changes` stays the empty dict there). -/
structure CampaignStats where
  campaignsAdded : Nat
  campaignsRemoved : Nat
  campaignsUpdated : Nat
  leadsAdded : Nat := 0
  leadsRemoved : Nat := 0
deriving Repr, DecidableEq

/-- The `removed_campaigns` set materialised as a duplicate-free list
(Python iterates the set in some order; one id per removed campaign). -/
def removedList (snap : List CampaignSnap) (db : DB) : List String :=
  ((activeCampaigns db).map (fun r => r.id)).dedup.filter
    (fun i => decide (i ∉ snapshotIds snap))

/-- Embeds `PushActivityDatabase.update_campaigns` (lines 185-300).  Reads the
active rows, diffs id sets, runs the add / remove / update loops, then
records a `sync_history` row.  Any SQL error aborts the whole call: the
exception is re-raised and the connection is closed without `commit`,
so the transaction rolls back. -/
def update_campaigns (db : DB) (snap : List CampaignSnap) (now : Nat) :
    Except String (DB × CampaignStats) :=
  let current := activeCampaigns db
  let added := addedCampaigns snap db
  match addLoop added now snap db 0 with
  | .error e => .error e
  | .ok (db1, nAdded) =>
    match removeLoop now
      (fun i => (current.find? (fun r => r.id == i)).map (fun r => r.name))
      (removedList snap db) db1 0 with
    | .error e => .error e
    | .ok (db2, nRemoved) =>
      match updLoop current now snap db2 0 with
      | .error e => .error e
      | .ok (db3, nUpdated) =>
        let syncRow : SyncRow :=
          { id := db3.syncHistory.length + 1, syncType := "incremental",
            campaignsProcessed := snap.length, campaignsAdded := nAdded,
            campaignsRemoved := nRemoved, timestamp := now }
        .ok ({ db3 with syncHistory := db3.syncHistory ++ [syncRow] },
             { campaignsAdded := nAdded, campaignsRemoved := nRemoved,
               campaignsUpdated := nUpdated })

/-- Embeds `SELECT company_name FROM pushed_companies WHERE campaign_id = ?`
in table order (`get_pushed_companies`, lines 345-356). -/
def pushedCompaniesList (db : DB) (cid : String) : List String :=
  (db.pushedCompanies.filter (fun p => p.campaignId == cid)).map
    (fun p => p.companyName)

/-- The Python set `get_pushed_companies` builds from those rows. -/
def get_pushed_companies (db : DB) (cid : String) : Finset String :=
  (pushedCompaniesList db cid).toFinset

/-- Embeds `mark_companies_as_pushed` (lines 358-374): one
`INSERT OR IGNORE INTO pushed_companies` per name; the UNIQUE constraint
makes a duplicate pair a no-op. -/
def mark_companies_as_pushed (db : DB) (cid : String)
    (names : List String) (now : Nat) : DB :=
  match names with
  | [] => db
  | name :: rest =>
    let db' :=
      if db.pushedCompanies.any (fun p => p.campaignId == cid && p.companyName == name) then
        db
      else
        { db with pushedCompanies :=
            db.pushedCompanies ++ [{ campaignId := cid, companyName := name, pushedAt := now }] }
    mark_companies_as_pushed db' cid rest now

/-- Embeds `get_new_companies` (lines 376-379):
`current_companies - pushed_companies`. -/
def get_new_companies (db : DB) (cid : String) (current : Finset String) :
    Finset String :=
  current \ get_pushed_companies db cid

/-- Embeds `log_push_activity` (lines 381-407): the `INSERT INTO change_log
(change_type, campaign_id, campaign_name, details)` names a `details`
column the schema does not have, so the statement always raises; the
surrounding `except` swallows the error and the connection closes
without `commit`, leaving the database unchanged. -/
def log_push_activity (db : DB) (cid : String) (pushType : String)
    (companiesCount : Nat) (now : Nat) : DB :=
  let campaignName :=
    match db.campaigns.find? (fun r => r.id == cid) with
    | some r => r.name
    | none => "Campaign " ++ cid
  match insertChangeLog ["change_type", "campaign_id", "campaign_name", "details"]
      (fun k => { id := k, changeType := pushType,
                  campaignId := some cid, campaignName := some campaignName,
                  newValue := some (toString companiesCount),
                  timestamp := now }) db.changeLog with
  | .ok log => { db with changeLog := log }
  | .error _ => db

/-- Python's `str.strip()`: drop leading and trailing whitespace. -/
def pyStrip (s : String) : String :=
  ⟨((s.data.dropWhile Char.isWhitespace).reverse.dropWhile
      Char.isWhitespace).reverse⟩

/-- The distinct non-blank company names of a list of snapshot leads,
one occurrence each: `if lead.get('companyName'): … .strip()`, keeping
non-empty results in a Python set (the extraction loop shared by
`push_all_companies`, `push_new_companies` and
`get_campaign_push_status`), materialised as a duplicate-free list. -/
def extractCompaniesList (leads : List LeadSnap) : List String :=
  (leads.filterMap (fun l => l.companyName.bind (fun s =>
    if pyStrip s = "" then none else some (pyStrip s)))).dedup

/-- The extracted company-name set itself. -/
def extractCompanies (leads : List LeadSnap) : Finset String :=
  (extractCompaniesList leads).toFinset

/-- Embeds `list(new_companies)` for `new_companies =
database.get_new_companies(campaign_id, unique_companies)`: the
not-yet-pushed companies, one occurrence each. -/
def newCompaniesList (db : DB) (cid : String) (leads : List LeadSnap) :
    List String :=
  (extractCompaniesList leads).filter
    (fun s => !(pushedCompaniesList db cid).contains s)

/-- The JSON value `push_all_companies` / `push_new_companies` return:
either `{"success": true, "companies_pushed": n, "companies": [...]}`
or `{"success": false, "error": msg}` — note the failure shape carries
no campaign id. -/
inductive PushResult where
  | ok (companiesPushed : Nat) (companies : List String)
  | err (error : String)
deriving Repr, DecidableEq

/-- Embeds `PushActivityClient.push_new_companies` (lines 613-658).  `leads` is
the Lemlist export for the campaign and `webhookOk` the outcome of the
external webhook POST.  On webhook success the delta is marked pushed
and `log_push_activity` is attempted (it silently fails, see above). -/
def push_new_companies (cid : String) (leads : List LeadSnap)
    (webhookOk : Bool) (now : Nat) (db : DB) : PushResult × DB :=
  if leads.isEmpty then
    (.err "No leads found for campaign", db)
  else
    let uniqueCompanies := extractCompaniesList leads
    if uniqueCompanies.isEmpty then
      (.err "No company names found", db)
    else
      let newCompanies := newCompaniesList db cid leads
      if newCompanies.isEmpty then
        (.err "No new companies to push", db)
      else if webhookOk then
        let db1 := mark_companies_as_pushed db cid newCompanies now
        let db2 := log_push_activity db1 cid "push_new" newCompanies.length now
        (.ok newCompanies.length newCompanies, db2)
      else
        (.err "Failed to push to webhook", db)

/-- Embeds `PushActivityClient.push_all_companies` (lines 572-611). -/
def push_all_companies (cid : String) (leads : List LeadSnap)
    (webhookOk : Bool) (now : Nat) (db : DB) : PushResult × DB :=
  if leads.isEmpty then
    (.err "No leads found for campaign", db)
  else
    let uniqueCompanies := extractCompaniesList leads
    if uniqueCompanies.isEmpty then
      (.err "No company names found", db)
    else if webhookOk then
      let db1 := mark_companies_as_pushed db cid uniqueCompanies now
      let db2 := log_push_activity db1 cid "push_all" uniqueCompanies.length now
      (.ok uniqueCompanies.length uniqueCompanies, db2)
    else
      (.err "Failed to push to webhook", db)

/-- One element of the `added_leads` / `removed_leads` summaries built by
`track_lead_changes`. -/
structure LeadSummary where
  email : Option String
  company : Option String
  name : String
deriving Repr, DecidableEq

/-- The changes dict `track_lead_changes` returns (lines 726-732). -/
structure LeadChanges where
  leadsAdded : Nat
  leadsRemoved : Nat
  companyCountChange : Int
  addedLeads : List LeadSummary
  removedLeads : List LeadSummary
deriving Repr, DecidableEq

/-- The all-zero changes dict returned when `track_lead_changes` hits an
exception (line 836). -/
def zeroLeadChanges : LeadChanges :=
  { leadsAdded := 0, leadsRemoved := 0, companyCountChange := 0,
    addedLeads := [], removedLeads := [] }

/-- Embeds `len(set(lead['company_name'] for lead in current_leads.values() if
lead['company_name']))` (line 812): distinct truthy company names among
the stored active leads of the campaign. -/
def oldCompanyCount (current : List LeadRow) : Nat :=
  ((current.filterMap (fun l => l.companyName.bind (fun s =>
    if s = "" then none else some s))).dedup).length

/-- Embeds `len(set(lead.get('companyName', '') for lead in new_leads if
lead.get('companyName')))` (line 813): distinct truthy company names in
the new snapshot. -/
def newCompanyCount (newLeads : List LeadSnap) : Nat :=
  ((newLeads.filterMap (fun l => l.companyName.bind (fun s =>
    if s = "" then none else some s))).dedup).length

/-- The lead row inserted for an added snapshot lead (lines 738-756);
`is_active` takes its schema default 1. -/
def newLeadRow (cid : String) (now : Nat) (l : LeadSnap) : LeadRow :=
  { id := l.id, campaignId := cid, email := l.email,
    firstName := l.firstName, lastName := l.lastName,
    companyName := l.companyName, jobTitle := l.jobTitle,
    linkedinUrl := l.linkedinUrl, state := l.state,
    stateSystem := l.stateSystem,
    createdAt := now, lastUpdated := now, isActive := true }

/-- Embeds `f"{lead.get('firstName', '')} {lead.get('lastName', '')}".strip()`. -/
def leadName (first last : Option String) : String :=
  pyStrip (first.getD "" ++ " " ++ last.getD "")

/-- The `for lead in new_leads: if lead['_id'] in added_lead_ids` loop
(lines 735-777): insert the lead row, then `INSERT INTO change_log (…,
details)` — the `details` column does not exist in the schema, so that
insert raises as soon as one lead is added. -/
def addLeadLoop (cid cname : String) (added : Finset String) (now : Nat) :
    List LeadSnap → DB → LeadChanges → Except String (DB × LeadChanges)
  | [], db, ch => .ok (db, ch)
  | l :: rest, db, ch =>
    if l.id ∈ added then
      match insertLeadRow (newLeadRow cid now l) db.leads with
      | .error e => .error e
      | .ok rows =>
        match insertChangeLog
          ["change_type", "campaign_id", "campaign_name", "lead_id",
           "lead_email", "lead_company", "details"]
          (fun k => { id := k, changeType := "lead_added",
                      campaignId := some cid, campaignName := some cname,
                      leadId := some l.id, leadEmail := l.email,
                      leadCompany := l.companyName, timestamp := now }) db.changeLog with
        | .error e => .error e
        | .ok log =>
          addLeadLoop cid cname added now rest
            { db with leads := rows, changeLog := log }
            { ch with leadsAdded := ch.leadsAdded + 1,
                      addedLeads := ch.addedLeads ++
                        [{ email := l.email, company := l.companyName,
                           name := leadName l.firstName l.lastName }] }
    else
      addLeadLoop cid cname added now rest db ch

/-- The `for lead_id in removed_lead_ids` loop (lines 780-809):
soft-delete the lead row, then `INSERT INTO change_log (…, details)` —
again a nonexistent column, so it raises for every removed lead. -/
def removeLeadLoop (cid cname : String) (lookup : String → Option LeadRow)
    (now : Nat) :
    List String → DB → LeadChanges → Except String (DB × LeadChanges)
  | [], db, ch => .ok (db, ch)
  | lid :: rest, db, ch =>
    let rows := db.leads.map (fun r =>
      if r.id = lid then { r with isActive := false, lastUpdated := now } else r)
    match insertChangeLog
      ["change_type", "campaign_id", "campaign_name", "lead_id",
       "lead_email", "lead_company", "details"]
      (fun k => { id := k, changeType := "lead_removed",
                  campaignId := some cid, campaignName := some cname,
                  leadId := some lid,
                  leadEmail := (lookup lid).bind (fun r => r.email),
                  leadCompany := (lookup lid).bind (fun r => r.companyName),
                  timestamp := now }) db.changeLog with
    | .error e => .error e
    | .ok log =>
      removeLeadLoop cid cname lookup now rest
        { db with leads := rows, changeLog := log }
        { ch with leadsRemoved := ch.leadsRemoved + 1,
                  removedLeads := ch.removedLeads ++
                    [{ email := (lookup lid).bind (fun r => r.email),
                       company := (lookup lid).bind (fun r => r.companyName),
                       name := ((lookup lid).map (fun r =>
                         leadName r.firstName r.lastName)).getD "" }] }

/-- The body of `PushActivityClient.track_lead_changes` (lines 699-832)
up to `conn.commit()`; any SQL error escapes to the `except` handler. -/
def trackLeadChangesE (cid cname : String) (newLeads : List LeadSnap)
    (now : Nat) (db : DB) : Except String (LeadChanges × DB) :=
  let current := db.leads.filter (fun l => l.campaignId == cid && l.isActive)
  let newIds : Finset String := (newLeads.map (fun l => l.id)).toFinset
  let addedIds : Finset String :=
    newIds \ ((current.map (fun l => l.id)).toFinset)
  let removedIds : List String :=
    (current.map (fun l => l.id)).dedup.filter (fun i => decide (i ∉ newIds))
  match addLeadLoop cid cname addedIds now newLeads db zeroLeadChanges with
  | .error e => .error e
  | .ok (db1, ch1) =>
    match removeLeadLoop cid cname
      (fun i => current.find? (fun l => l.id == i)) now removedIds db1 ch1 with
    | .error e => .error e
    | .ok (db2, ch2) =>
      let ccc : Int :=
        (newCompanyCount newLeads : Int) - (oldCompanyCount current : Int)
      let ch3 := { ch2 with companyCountChange := ccc }
      if ccc ≠ 0 then
        match insertChangeLog
          ["change_type", "campaign_id", "campaign_name", "old_value", "new_value"]
          (fun k => { id := k, changeType := "company_count_changed",
                      campaignId := some cid, campaignName := some cname,
                      oldValue := some (toString (oldCompanyCount current)),
                      newValue := some (toString (newCompanyCount newLeads)),
                      timestamp := now }) db2.changeLog with
        | .error e => .error e
        | .ok log => .ok (ch3, { db2 with changeLog := log })
      else
        .ok (ch3, db2)

/-- Embeds `PushActivityClient.track_lead_changes` with its `except` handler:
on any SQL error the connection closes without `commit` (state rolls
back) and the all-zero changes dict is returned (lines 834-836). -/
def track_lead_changes (cid cname : String) (newLeads : List LeadSnap)
    (now : Nat) (db : DB) : LeadChanges × DB :=
  match trackLeadChangesE cid cname newLeads now db with
  | .ok r => r
  | .error _ => (zeroLeadChanges, db)

/-- Stable insertion of an entry into a list already sorted by
descending timestamp: the new entry goes after every entry whose
timestamp is `≥` its own. -/
def tsDescInsert (e : ChangeEntry) : List ChangeEntry → List ChangeEntry
  | [] => [e]
  | y :: ys =>
    if y.timestamp ≤ e.timestamp then e :: y :: ys else y :: tsDescInsert e ys

/-- Embeds `ORDER BY change_timestamp DESC` over the table scan: a stable sort
by descending timestamp.  The scan yields rows in id (insertion) order,
and the query names no secondary sort key, so entries with equal
timestamps keep that insertion order. -/
def sortTsDesc : List ChangeEntry → List ChangeEntry
  | [] => []
  | x :: xs => tsDescInsert x (sortTsDesc xs)

/-- One row of the result set of `get_change_log` (lines 158-176): the
query projects these seven columns — note the entry id is not among
them. -/
structure ChangeView where
  changeType : String
  campaignName : Option String
  leadEmail : Option String
  leadCompany : Option String
  oldValue : Option String
  newValue : Option String
  timestamp : Nat
deriving Repr, DecidableEq

/-- The projection applied to each fetched row. -/
def viewOf (e : ChangeEntry) : ChangeView :=
  { changeType := e.changeType, campaignName := e.campaignName,
    leadEmail := e.leadEmail, leadCompany := e.leadCompany,
    oldValue := e.oldValue, newValue := e.newValue,
    timestamp := e.timestamp }

/-- The entries selected by `get_change_log`'s query:
`ORDER BY change_timestamp DESC LIMIT ?`. -/
def get_change_log_entries (db : DB) (limit : Nat) : List ChangeEntry :=
  (sortTsDesc db.changeLog).take limit

/-- Embeds `PushActivityDatabase.get_change_log` (lines 152-183). -/
def get_change_log (db : DB) (limit : Nat) : List ChangeView :=
  (get_change_log_entries db limit).map viewOf

/-- The state-touching operations of the engine, with the external
inputs (snapshot, leads, webhook outcome, clock) each one consumes. -/
inductive Op where
  | updateCampaignsOp (snap : List CampaignSnap) (now : Nat)
  | trackLeadChangesOp (cid cname : String) (newLeads : List LeadSnap) (now : Nat)
  | markPushedOp (cid : String) (names : List String) (now : Nat)
  | logPushActivityOp (cid pushType : String) (count : Nat) (now : Nat)
  | pushAllOp (cid : String) (leads : List LeadSnap) (webhookOk : Bool) (now : Nat)
  | pushNewOp (cid : String) (leads : List LeadSnap) (webhookOk : Bool) (now : Nat)
deriving Repr

/-- Running one operation against the store.  A raised SQL error leaves
the store unchanged: the failed pass never commits. -/
def applyOp (op : Op) (db : DB) : DB :=
  match op with
  | .updateCampaignsOp snap now =>
    match update_campaigns db snap now with
    | .ok (db', _) => db'
    | .error _ => db
  | .trackLeadChangesOp cid cname newLeads now =>
    (track_lead_changes cid cname newLeads now db).2
  | .markPushedOp cid names now => mark_companies_as_pushed db cid names now
  | .logPushActivityOp cid pushType count now =>
    log_push_activity db cid pushType count now
  | .pushAllOp cid leads webhookOk now =>
    (push_all_companies cid leads webhookOk now db).2
  | .pushNewOp cid leads webhookOk now =>
    (push_new_companies cid leads webhookOk now db).2

/-- Running a sequence of operations. -/
def applyOps (ops : List Op) (db : DB) : DB :=
  ops.foldl (fun d op => applyOp op d) db

/-- One `pushNew` invocation of a call sequence: the leads returned by
the external export, the webhook outcome, and the clock at that call. -/
structure PushCall where
  leads : List LeadSnap
  webhookOk : Bool
  now : Nat
deriving Repr

/-- A sequence of `push_new_companies` calls for one campaign, threading
the store and collecting the `companies` payload of every successful
call. -/
def runPushNew (cid : String) : List PushCall → DB → DB × List (List String)
  | [], db => (db, [])
  | call :: rest, db =>
    match push_new_companies cid call.leads call.webhookOk call.now db with
    | (.ok _ companies, db') =>
      let (dbf, ps) := runPushNew cid rest db'
      (dbf, companies :: ps)
    | (.err _, db') => runPushNew cid rest db'

/-! ### Generic list helpers -/

theorem find?_filter_comm {α : Type} (l : List α) (p q : α → Bool) :
    (l.filter q).find? p = l.find? (fun a => q a && p a) := by
  induction l with
  | nil => rfl
  | cons x xs ih =>
    by_cases hq : q x = true
    · by_cases hp : p x = true
      · simp [List.filter_cons, hq, List.find?_cons_of_pos, hp]
      · simp only [List.filter_cons, hq, if_pos]
        rw [List.find?_cons_of_neg _ hp, List.find?_cons_of_neg, ih]
        simp [hq, hp]
    · simp only [List.filter_cons, hq]
      rw [if_neg (by simp [hq]), ih, List.find?_cons_of_neg]
      simp [hq]

theorem find?_map_pres {α : Type} (f : α → α) (p : α → Bool) (l : List α)
    (hp : ∀ a, p (f a) = p a) :
    (l.map f).find? p = (l.find? p).map f := by
  induction l with
  | nil => rfl
  | cons x xs ih =>
    by_cases hx : p x = true
    · rw [List.map_cons, List.find?_cons_of_pos _ (by rw [hp]; exact hx),
        List.find?_cons_of_pos _ hx, Option.map_some']
    · rw [List.map_cons, List.find?_cons_of_neg _ (by rw [hp]; exact hx),
        List.find?_cons_of_neg _ hx, ih]

theorem find?_map_pres_id {α : Type} (f : α → α) (p : α → Bool) (l : List α)
    (hp : ∀ a, p (f a) = p a) (hid : ∀ a, p a = true → f a = a) :
    (l.map f).find? p = l.find? p := by
  rw [find?_map_pres f p l hp]
  cases h : l.find? p with
  | none => rfl
  | some a => simp [hid a (List.find?_some h)]

theorem find?_append_some {α : Type} {l₁ : List α} (l₂ : List α)
    {p : α → Bool} {a : α} (h : l₁.find? p = some a) :
    (l₁ ++ l₂).find? p = some a := by
  rw [List.find?_append, h]; rfl

theorem find?_append_none {α : Type} {l₁ : List α} (l₂ : List α)
    {p : α → Bool} (h : l₁.find? p = none) :
    (l₁ ++ l₂).find? p = l₂.find? p := by
  rw [List.find?_append, h]; rfl

/-! ### The pushed-companies set -/

theorem pushedCompaniesList_append (db : DB) (rows : List PushedRow)
    (cid : String) :
    pushedCompaniesList { db with pushedCompanies := db.pushedCompanies ++ rows } cid
      = pushedCompaniesList db cid ++
        (rows.filter (fun p => p.campaignId == cid)).map (fun p => p.companyName) := by
  simp [pushedCompaniesList]

theorem mem_get_pushed_companies {db : DB} {cid x : String} :
    x ∈ get_pushed_companies db cid ↔
      ∃ p ∈ db.pushedCompanies, p.campaignId = cid ∧ p.companyName = x := by
  simp only [get_pushed_companies, List.mem_toFinset, pushedCompaniesList,
    List.mem_map, List.mem_filter]
  constructor
  · rintro ⟨p, ⟨hp, hcid⟩, hx⟩
    exact ⟨p, hp, by simpa using hcid, hx⟩
  · rintro ⟨p, hp, hcid, hx⟩
    exact ⟨p, ⟨hp, by simpa using hcid⟩, hx⟩

/-- Effect of `mark_companies_as_pushed` on the pushed set of the same
campaign: exactly the given names are unioned in. -/
theorem get_pushed_mark_self (db : DB) (cid : String) (names : List String)
    (now : Nat) :
    get_pushed_companies (mark_companies_as_pushed db cid names now) cid
      = get_pushed_companies db cid ∪ names.toFinset := by
  induction names generalizing db with
  | nil => simp [mark_companies_as_pushed]
  | cons name rest ih =>
    rw [mark_companies_as_pushed]
    by_cases h : db.pushedCompanies.any
        (fun p => p.campaignId == cid && p.companyName == name) = true
    · rw [if_pos h, ih]
      have hmem : name ∈ get_pushed_companies db cid := by
        rcases List.any_eq_true.1 h with ⟨p, hp, hpc⟩
        simp only [Bool.and_eq_true, beq_iff_eq] at hpc
        exact mem_get_pushed_companies.2 ⟨p, hp, hpc.1, hpc.2⟩
      ext x
      simp only [Finset.mem_union, List.toFinset_cons, Finset.mem_insert]
      constructor
      · rintro (hx | hx) <;> tauto
      · rintro (hx | rfl | hx)
        · left; exact hx
        · left; exact hmem
        · right; exact hx
    · rw [if_neg h, ih]
      have : get_pushed_companies
          { db with pushedCompanies := db.pushedCompanies ++
              [{ campaignId := cid, companyName := name, pushedAt := now }] } cid
          = insert name (get_pushed_companies db cid) := by
        simp only [get_pushed_companies, pushedCompaniesList_append]
        simp only [List.filter_cons, beq_self_eq_true, Bool.true_and, if_pos,
          List.map_cons, List.map_nil, List.filter_nil, List.toFinset_append]
        ext x
        simp [or_comm]
      rw [this]
      ext x
      simp only [Finset.mem_union, Finset.mem_insert, List.toFinset_cons]
      tauto

/-- Embeds `mark_companies_as_pushed` leaves the pushed sets of every other
campaign unchanged. -/
theorem get_pushed_mark_other (db : DB) (cid : String) (names : List String)
    (now : Nat) (c : String) (hc : c ≠ cid) :
    get_pushed_companies (mark_companies_as_pushed db cid names now) c
      = get_pushed_companies db c := by
  induction names generalizing db with
  | nil => simp [mark_companies_as_pushed]
  | cons name rest ih =>
    rw [mark_companies_as_pushed]
    by_cases h : db.pushedCompanies.any
        (fun p => p.campaignId == cid && p.companyName == name) = true
    · rw [if_pos h, ih]
    · rw [if_neg h, ih]
      simp only [get_pushed_companies, pushedCompaniesList_append]
      have : (([{ campaignId := cid, companyName := name, pushedAt := now }] :
          List PushedRow).filter (fun p => p.campaignId == c)) = [] := by
        simp [List.filter_cons, hc.symm]
      rw [this]
      simp

/-- Monotonicity of `mark_companies_as_pushed`. -/
theorem get_pushed_mark_mono (db : DB) (cid : String) (names : List String)
    (now : Nat) (c : String) :
    get_pushed_companies db c ⊆
      get_pushed_companies (mark_companies_as_pushed db cid names now) c := by
  by_cases hc : c = cid
  · subst hc; rw [get_pushed_mark_self]; exact Finset.subset_union_left
  · rw [get_pushed_mark_other db cid names now c hc]

/-- Embeds `log_push_activity` is a no-op: its `INSERT` names the nonexistent
`details` column, so it raises, the error is swallowed and the
connection closes without commit. -/
theorem log_push_activity_eq (db : DB) (cid pushType : String)
    (count now : Nat) :
    log_push_activity db cid pushType count now = db := by
  rfl

/-! ### C5 — campaign diff partition -/

/-- C5.  For every store and snapshot, the campaign diff's `added`
and `removed` id sets are disjoint, and together with the unchanged
intersection they exactly cover the union of the old and new id sets. -/
theorem campaign_diff_partition (snap : List CampaignSnap) (db : DB) :
    Disjoint (addedCampaigns snap db) (removedCampaigns snap db) ∧
    addedCampaigns snap db ∪
        (currentCampaignIds db ∩ snapshotIds snap) ∪
        removedCampaigns snap db
      = currentCampaignIds db ∪ snapshotIds snap := by
  constructor
  · exact Finset.disjoint_left.2 (fun a ha hb =>
      (Finset.mem_sdiff.1 ha).2 (Finset.mem_sdiff.1 hb).1)
  · ext a
    simp only [addedCampaigns, removedCampaigns, Finset.mem_union,
      Finset.mem_inter, Finset.mem_sdiff]
    tauto

/-! ### C8 — push failures are typed results without the campaign id -/

/-- Every invocation of `push_new_companies` either succeeds or returns
a typed `err` value and leaves the store untouched. -/
theorem pushNew_cases (cid : String) (leads : List LeadSnap)
    (webhookOk : Bool) (now : Nat) (db : DB) :
    (∃ n cs db', push_new_companies cid leads webhookOk now db = (.ok n cs, db')) ∨
      (∃ msg, push_new_companies cid leads webhookOk now db = (.err msg, db)) := by
  rw [push_new_companies]
  by_cases h1 : leads.isEmpty = true
  · rw [if_pos h1]; exact Or.inr ⟨_, rfl⟩
  · rw [if_neg h1]
    by_cases h2 : (extractCompaniesList leads).isEmpty = true
    · rw [if_pos h2]; exact Or.inr ⟨_, rfl⟩
    · rw [if_neg h2]
      by_cases h3 : (newCompaniesList db cid leads).isEmpty = true
      · rw [if_pos h3]; exact Or.inr ⟨_, rfl⟩
      · rw [if_neg h3]
        cases webhookOk with
        | true => exact Or.inl ⟨_, _, _, rfl⟩
        | false => exact Or.inr ⟨_, rfl⟩

/-- Every invocation of `push_all_companies` either succeeds or returns
a typed `err` value and leaves the store untouched. -/
theorem pushAll_cases (cid : String) (leads : List LeadSnap)
    (webhookOk : Bool) (now : Nat) (db : DB) :
    (∃ n cs db', push_all_companies cid leads webhookOk now db = (.ok n cs, db')) ∨
      (∃ msg, push_all_companies cid leads webhookOk now db = (.err msg, db)) := by
  rw [push_all_companies]
  by_cases h1 : leads.isEmpty = true
  · rw [if_pos h1]; exact Or.inr ⟨_, rfl⟩
  · rw [if_neg h1]
    by_cases h2 : (extractCompaniesList leads).isEmpty = true
    · rw [if_pos h2]; exact Or.inr ⟨_, rfl⟩
    · rw [if_neg h2]
      cases webhookOk with
      | true => exact Or.inl ⟨_, _, _, rfl⟩
      | false => exact Or.inr ⟨_, rfl⟩

/-- C8 (amended).  Every invocation of `push_new_companies` or
`push_all_companies` — including the guard failures — either succeeds
or returns a typed `err` result value (not a thrown exception) that
leaves the store untouched; the failure value carries only an error
message, not the campaign id (see the counterexample). -/
theorem push_failures_typed (cid : String) (leads : List LeadSnap)
    (webhookOk : Bool) (now : Nat) (db : DB) :
    ((∃ n cs db', push_new_companies cid leads webhookOk now db = (.ok n cs, db')) ∨
      (∃ msg, push_new_companies cid leads webhookOk now db = (.err msg, db))) ∧
    ((∃ n cs db', push_all_companies cid leads webhookOk now db = (.ok n cs, db')) ∨
      (∃ msg, push_all_companies cid leads webhookOk now db = (.err msg, db))) :=
  ⟨pushNew_cases cid leads webhookOk now db,
   pushAll_cases cid leads webhookOk now db⟩

/-- C8, counterexample.  Two different campaign ids produce the very
same failure value: the returned `{"success": false, "error": …}` dict
cannot carry the campaign id it concerns. -/
theorem push_failure_no_campaign_id_cx :
    "c1" ≠ "c2" ∧
    push_new_companies "c1" [] true 0 {} = push_new_companies "c2" [] true 0 {} ∧
    (push_new_companies "c1" [] true 0 ({} : DB)).1 =
      .err "No leads found for campaign" ∧
    push_all_companies "c1" [] true 0 {} = push_all_companies "c2" [] true 0 {} := by
  refine ⟨by decide, rfl, rfl, rfl⟩

/-! ### C2 — pushNew computes and applies exactly the delta -/

theorem newCompaniesList_nodup (db : DB) (cid : String)
    (leads : List LeadSnap) : (newCompaniesList db cid leads).Nodup :=
  (List.nodup_dedup _).filter _

theorem newCompaniesList_toFinset (db : DB) (cid : String)
    (leads : List LeadSnap) :
    (newCompaniesList db cid leads).toFinset =
      get_new_companies db cid (extractCompanies leads) := by
  ext x
  simp only [newCompaniesList, get_new_companies, extractCompanies,
    get_pushed_companies, List.mem_toFinset, List.mem_filter,
    Finset.mem_sdiff, Bool.not_eq_true']
  constructor
  · rintro ⟨hx, hc⟩
    simp only [List.elem_eq_mem, decide_eq_false_iff_not] at hc
    exact ⟨hx, hc⟩
  · rintro ⟨hx, hmem⟩
    refine ⟨hx, ?_⟩
    simp only [List.elem_eq_mem, decide_eq_false_iff_not]
    exact hmem

theorem extractCompaniesList_ne_nil_leads {leads : List LeadSnap}
    (hne : extractCompaniesList leads ≠ []) : leads.isEmpty = false := by
  cases leads with
  | nil => exact absurd rfl hne
  | cons l ls => rfl

/-- C2 (amended).  For a campaign and a lead export whose extracted
company set is non-empty, `push_new_companies` computes
`delta = currentSet − pushedSet(campaignId)`; it returns the
`NoNewCompanies` failure exactly when `delta` is empty, and otherwise —
provided the webhook delivery succeeds — unions exactly `delta` into
the campaign's pushed set (leaving every other campaign's set unchanged)
and returns exactly `delta` as the payload. -/
theorem pushNew_delta_spec (cid : String) (leads : List LeadSnap)
    (now : Nat) (db : DB) (hne : extractCompaniesList leads ≠ []) :
    (push_new_companies cid leads true now db =
        (.err "No new companies to push", db)
      ↔ get_new_companies db cid (extractCompanies leads) = ∅) ∧
    (get_new_companies db cid (extractCompanies leads) ≠ ∅ →
      ∃ db', push_new_companies cid leads true now db =
          (.ok (newCompaniesList db cid leads).length
            (newCompaniesList db cid leads), db') ∧
        (newCompaniesList db cid leads).Nodup ∧
        (newCompaniesList db cid leads).toFinset =
          get_new_companies db cid (extractCompanies leads) ∧
        get_pushed_companies db' cid =
          get_pushed_companies db cid ∪
            get_new_companies db cid (extractCompanies leads) ∧
        ∀ c, c ≠ cid → get_pushed_companies db' c = get_pushed_companies db c) := by
  have hle : leads.isEmpty = false := extractCompaniesList_ne_nil_leads hne
  have hee : (extractCompaniesList leads).isEmpty = false := by
    cases hE : extractCompaniesList leads with
    | nil => exact absurd hE hne
    | cons a l => rfl
  have hdelta : (newCompaniesList db cid leads) = [] ↔
      get_new_companies db cid (extractCompanies leads) = ∅ := by
    rw [← newCompaniesList_toFinset db cid leads]
    constructor
    · intro h; rw [h]; rfl
    · intro h
      have := List.toFinset_eq_empty_iff (newCompaniesList db cid leads)
      exact this.1 h
  rw [push_new_companies, if_neg (by simp [hle]), if_neg (by simp [hee])]
  constructor
  · by_cases h : (newCompaniesList db cid leads).isEmpty = true
    · rw [if_pos h]
      simp only [List.isEmpty_iff] at h
      simp [hdelta.1 h]
    · rw [if_neg h, if_pos rfl]
      simp only [List.isEmpty_iff] at h
      constructor
      · intro habs
        exact absurd (congrArg Prod.fst habs) (by simp)
      · intro habs
        exact absurd (hdelta.2 habs) h
  · intro hd
    have h : (newCompaniesList db cid leads).isEmpty = false := by
      cases hE : newCompaniesList db cid leads with
      | nil => exact absurd (hdelta.1 hE) hd
      | cons a l => rfl
    rw [if_neg (by simp [h]), if_pos rfl]
    refine ⟨_, rfl, newCompaniesList_nodup db cid leads,
      newCompaniesList_toFinset db cid leads, ?_, ?_⟩
    · rw [log_push_activity_eq, get_pushed_mark_self,
        newCompaniesList_toFinset]
    · intro c hc
      rw [log_push_activity_eq, get_pushed_mark_other _ _ _ _ _ hc]

/-- The single-lead export used in the C2 counterexample. -/
def cxLeads : List LeadSnap := [{ id := "L1", companyName := some "Acme" }]

/-- C2, counterexample.  When the webhook delivery fails, the delta
is non-empty and yet `push_new_companies` returns a webhook failure and
unions nothing into the pushed set — the claim's unconditional
"otherwise unions delta and returns delta" is false on the code. -/
theorem pushNew_webhook_failure_cx :
    newCompaniesList ({} : DB) "A" cxLeads ≠ [] ∧
    push_new_companies "A" cxLeads false 0 {} =
      (.err "Failed to push to webhook", {}) ∧
    get_pushed_companies ((push_new_companies "A" cxLeads false 0 ({} : DB)).2) "A" ≠
      get_pushed_companies ({} : DB) "A" ∪
        get_new_companies ({} : DB) "A" (extractCompanies cxLeads) := by
  refine ⟨by decide, by rfl, by decide⟩

/-! ### C7 — the change-log query contract -/

theorem tsDescInsert_perm (e : ChangeEntry) (l : List ChangeEntry) :
    (tsDescInsert e l).Perm (e :: l) := by
  induction l with
  | nil => exact List.Perm.refl _
  | cons y ys ih =>
    rw [tsDescInsert]
    by_cases h : y.timestamp ≤ e.timestamp
    · rw [if_pos h]
    · rw [if_neg h]
      exact (ih.cons y).trans (List.Perm.swap e y ys)

theorem sortTsDesc_perm (l : List ChangeEntry) : (sortTsDesc l).Perm l := by
  induction l with
  | nil => exact List.Perm.refl _
  | cons x xs ih =>
    rw [sortTsDesc]
    exact (tsDescInsert_perm x (sortTsDesc xs)).trans (ih.cons x)

theorem tsDescInsert_pairwise (e : ChangeEntry) (l : List ChangeEntry)
    (h : l.Pairwise (fun a b => b.timestamp ≤ a.timestamp)) :
    (tsDescInsert e l).Pairwise (fun a b => b.timestamp ≤ a.timestamp) := by
  induction l with
  | nil => simp [tsDescInsert]
  | cons y ys ih =>
    rw [tsDescInsert]
    rcases List.pairwise_cons.1 h with ⟨hy, hys⟩
    by_cases hc : y.timestamp ≤ e.timestamp
    · rw [if_pos hc]
      refine List.pairwise_cons.2 ⟨?_, h⟩
      intro z hz
      rcases List.mem_cons.1 hz with rfl | hz
      · exact hc
      · exact (hy z hz).trans hc
    · rw [if_neg hc]
      refine List.pairwise_cons.2 ⟨?_, ih hys⟩
      intro z hz
      have hz' := (tsDescInsert_perm e ys).mem_iff.1 hz
      rcases List.mem_cons.1 hz' with rfl | hz'
      · exact le_of_not_le hc
      · exact hy z hz'

theorem sortTsDesc_pairwise (l : List ChangeEntry) :
    (sortTsDesc l).Pairwise (fun a b => b.timestamp ≤ a.timestamp) := by
  induction l with
  | nil => simp [sortTsDesc]
  | cons x xs ih => exact tsDescInsert_pairwise x (sortTsDesc xs) ih

/-- C7 (amended).  `get_change_log(N)` returns the `N` most recent
entries ordered newest-first by timestamp (entries left out are no newer
than any returned one), projected to the seven selected columns.  The
query names no secondary sort key, so equal-timestamp entries keep the
scan order — they are *not* reordered by descending identifier. -/
theorem get_change_log_query_contract (db : DB) (limit : Nat) :
    (get_change_log_entries db limit).length = min limit db.changeLog.length ∧
    (get_change_log_entries db limit).Pairwise
      (fun a b => b.timestamp ≤ a.timestamp) ∧
    (get_change_log_entries db limit).Subperm db.changeLog ∧
    (∀ e ∈ db.changeLog, e ∉ get_change_log_entries db limit →
      ∀ o ∈ get_change_log_entries db limit, e.timestamp ≤ o.timestamp) ∧
    get_change_log db limit = (get_change_log_entries db limit).map viewOf := by
  refine ⟨?_, ?_, ?_, ?_, rfl⟩
  · rw [get_change_log_entries, List.length_take,
      (sortTsDesc_perm db.changeLog).length_eq]
  · exact (sortTsDesc_pairwise db.changeLog).sublist
      (List.take_sublist limit _)
  · exact ((List.take_sublist limit _).subperm).trans
      (sortTsDesc_perm db.changeLog).subperm
  · intro e he hout o ho
    have hsorted := sortTsDesc_pairwise db.changeLog
    have hsplit := List.take_append_drop limit (sortTsDesc db.changeLog)
    have hes : e ∈ sortTsDesc db.changeLog :=
      (sortTsDesc_perm db.changeLog).mem_iff.2 he
    have hed : e ∈ (sortTsDesc db.changeLog).drop limit := by
      rw [← hsplit] at hes
      rcases List.mem_append.1 hes with h | h
      · exact absurd h hout
      · exact h
    have := (List.pairwise_append.1 (by rw [hsplit]; exact hsorted)).2.2
    exact this o ho e hed

/-- The first entry of the tie-order counterexample log. -/
def cxLogE1 : ChangeEntry :=
  { id := 1, changeType := "campaign_added", timestamp := 5 }

/-- The second entry of the tie-order counterexample log. -/
def cxLogE2 : ChangeEntry :=
  { id := 2, changeType := "campaign_removed", timestamp := 5 }

/-- A store whose change log holds two entries with equal timestamps. -/
def cxLogDB : DB := { changeLog := [cxLogE1, cxLogE2] }

/-- C7, counterexample.  Two entries share a timestamp; the one with
the larger identifier comes *second* in the query result, not first:
the code's `ORDER BY change_timestamp DESC` has no identifier
tie-break. -/
theorem get_change_log_tie_order_cx :
    cxLogDB.changeLog.map (fun e => (e.id, e.timestamp)) = [(1, 5), (2, 5)] ∧
    get_change_log cxLogDB 2 = [viewOf cxLogE1, viewOf cxLogE2] ∧
    viewOf cxLogE1 ≠ viewOf cxLogE2 := by
  refine ⟨by decide, by decide, by decide⟩

/-- C7, witness for the amended contract.  Instantiating the
query-contract theorem on the concrete two-entry log with limit 1:
the omitted entry is no newer than the returned one. -/
theorem get_change_log_query_contract_witness :
    cxLogE2.timestamp ≤ cxLogE1.timestamp :=
  (get_change_log_query_contract cxLogDB 1).2.2.2.1 cxLogE2 (by decide)
    (by decide) cxLogE1 (by decide)

/-! ### C1 — no duplicate notification across pushNew calls -/

theorem pushNew_ok_spec {cid : String} {leads : List LeadSnap} {w : Bool}
    {now : Nat} {db db' : DB} {n : Nat} {cs : List String}
    (h : push_new_companies cid leads w now db = (.ok n cs, db')) :
    cs = newCompaniesList db cid leads ∧
    db' = mark_companies_as_pushed db cid (newCompaniesList db cid leads) now := by
  rw [push_new_companies] at h
  by_cases h1 : leads.isEmpty = true
  · rw [if_pos h1] at h
    simp [Prod.ext_iff] at h
  · rw [if_neg h1] at h
    by_cases h2 : (extractCompaniesList leads).isEmpty = true
    · rw [if_pos h2] at h
      simp [Prod.ext_iff] at h
    · rw [if_neg h2] at h
      by_cases h3 : (newCompaniesList db cid leads).isEmpty = true
      · rw [if_pos h3] at h
        simp [Prod.ext_iff] at h
      · rw [if_neg h3] at h
        cases w with
        | false =>
          rw [if_neg (by simp)] at h
          simp [Prod.ext_iff] at h
        | true =>
          rw [if_pos rfl] at h
          simp only [log_push_activity_eq, Prod.mk.injEq,
            PushResult.ok.injEq] at h
          exact ⟨h.1.2.symm, h.2.symm⟩

theorem pushNew_ok_pushed {cid : String} {leads : List LeadSnap} {w : Bool}
    {now : Nat} {db db' : DB} {n : Nat} {cs : List String}
    (h : push_new_companies cid leads w now db = (.ok n cs, db')) :
    cs.Nodup ∧ (∀ x ∈ cs, x ∉ get_pushed_companies db cid) ∧
    get_pushed_companies db' cid = get_pushed_companies db cid ∪ cs.toFinset := by
  obtain ⟨hcs, hdb⟩ := pushNew_ok_spec h
  subst hcs
  subst hdb
  refine ⟨newCompaniesList_nodup _ _ _, ?_, ?_⟩
  · intro x hx
    have hx' : x ∈ (newCompaniesList db cid leads).toFinset :=
      List.mem_toFinset.2 hx
    rw [newCompaniesList_toFinset] at hx'
    simp only [get_new_companies, Finset.mem_sdiff] at hx'
    exact hx'.2
  · rw [get_pushed_mark_self]

theorem pushNew_err_snd {cid : String} {leads : List LeadSnap} {w : Bool}
    {now : Nat} {db : DB} {msg : String}
    (h : (push_new_companies cid leads w now db).1 = .err msg) :
    (push_new_companies cid leads w now db).2 = db := by
  rcases pushNew_cases cid leads w now db with ⟨n, cs, db', heq⟩ | ⟨m, heq⟩
  · rw [heq] at h
    simp at h
  · rw [heq]

/-- Auxiliary invariant for the pushNew call sequence: the collected
payloads are jointly duplicate-free and consist of names not yet pushed
at the start. -/
theorem runPushNew_aux (cid : String) (calls : List PushCall) (db : DB) :
    ((runPushNew cid calls db).2).flatten.Nodup ∧
    ∀ x ∈ ((runPushNew cid calls db).2).flatten,
      x ∉ get_pushed_companies db cid := by
  induction calls generalizing db with
  | nil => simp [runPushNew]
  | cons call rest ih =>
    rcases hres : push_new_companies cid call.leads call.webhookOk call.now db
      with ⟨res, db1⟩
    cases res with
    | err msg =>
      have hdb1 : db1 = db := by
        have h1 : (push_new_companies cid call.leads call.webhookOk
            call.now db).1 = .err msg := by rw [hres]
        have h2 := pushNew_err_snd h1
        rw [hres] at h2
        exact h2
      rw [runPushNew, hres]
      subst hdb1
      exact ih db1
    | ok n cs =>
      obtain ⟨hnd, hnew, hpush⟩ := pushNew_ok_pushed hres
      rw [runPushNew, hres]
      rcases hrun : runPushNew cid rest db1 with ⟨dbf, ps⟩
      have ihr := ih db1
      rw [hrun] at ihr
      simp only [hrun, List.flatten_cons]
      simp only at ihr
      constructor
      · refine List.Nodup.append hnd ihr.1 ?_
        intro x hxcs hxps
        have : x ∈ get_pushed_companies db1 cid := by
          rw [hpush]
          exact Finset.mem_union_right _ (List.mem_toFinset.2 hxcs)
        exact ihr.2 x hxps this
      · intro x hx
        rcases List.mem_append.1 hx with hx | hx
        · exact hnew x hx
        · intro hmem
          have : x ∈ get_pushed_companies db1 cid := by
            rw [hpush]; exact Finset.mem_union_left _ hmem
          exact ihr.2 x hx this

/-- C1.  Across any sequence of `push_new_companies` calls for one
campaign with a stable-or-growing company set, the union of the
`companies` payloads of the successful calls contains no repeated
company name. -/
theorem pushNew_no_duplicate_notification (cid : String)
    (calls : List PushCall) (db : DB)
    (hmono : (calls.map (fun k => extractCompanies k.leads)).Chain' (· ⊆ ·)) :
    ((runPushNew cid calls db).2).flatten.Nodup :=
  (runPushNew_aux cid calls db).1

/-- The concrete two-call sequence used to witness C1: the second call's
company set strictly grows over the first. -/
def cxCalls : List PushCall :=
  [{ leads := [{ id := "L1", companyName := some "Acme" }],
     webhookOk := true, now := 0 },
   { leads := [{ id := "L1", companyName := some "Acme" },
               { id := "L2", companyName := some "Beta" }],
     webhookOk := true, now := 1 }]

/-- C1, witness: the hypotheses hold on the concrete growing
two-call sequence, and the flattened payloads are duplicate-free. -/
theorem pushNew_no_duplicate_notification_witness :
    ((cxCalls.map (fun k => extractCompanies k.leads)).Chain' (· ⊆ ·)) ∧
    ((runPushNew "A" cxCalls ({} : DB)).2).flatten.Nodup := by
  have hch : (cxCalls.map (fun k => extractCompanies k.leads)).Chain' (· ⊆ ·) :=
    List.chain'_cons.2 ⟨by decide, List.chain'_singleton _⟩
  exact ⟨hch, pushNew_no_duplicate_notification "A" cxCalls {} hch⟩

/-! ### C3 — the pushed set only grows -/

theorem insertChangeLog_valid_ok (cols : List String) (mk : Nat → ChangeEntry)
    (log : List ChangeEntry) (h : cols.all changeLogColumns.contains = true) :
    insertChangeLog cols mk log = .ok (log ++ [mk (log.length + 1)]) := by
  rw [insertChangeLog, if_pos h]

theorem insertChangeLog_err (cols : List String) (mk : Nat → ChangeEntry)
    (log : List ChangeEntry) (h : cols.all changeLogColumns.contains = false) :
    insertChangeLog cols mk log = .error "table change_log has no such column" := by
  rw [insertChangeLog, if_neg (by simp [h])]

theorem addLoop_ok_fields {added : Finset String} {now : Nat} :
    ∀ {snap : List CampaignSnap} {db : DB} {n : Nat} {db2 : DB} {n2 : Nat},
    addLoop added now snap db n = .ok (db2, n2) →
    db2.leads = db.leads ∧ db2.pushedCompanies = db.pushedCompanies ∧
      db2.syncHistory = db.syncHistory := by
  intro snap
  induction snap with
  | nil =>
    intro db n db2 n2 h
    rw [addLoop] at h
    cases h
    exact ⟨rfl, rfl, rfl⟩
  | cons c rest ih =>
    intro db n db2 n2 h
    rw [addLoop] at h
    by_cases hc : c.id ∈ added
    · rw [if_pos hc] at h
      cases hr : insertCampaignRow (newCampaignRow now c) db.campaigns with
      | error e => rw [hr] at h; cases h
      | ok rows =>
        rw [hr, insertChangeLog_valid_ok _ _ _ (by decide)] at h
        simp only [] at h
        simpa using ih h
    · rw [if_neg hc] at h
      exact ih h

theorem removeLoop_ok_fields {now : Nat} {nameOf : String → Option String} :
    ∀ {l : List String} {db : DB} {n : Nat} {db2 : DB} {n2 : Nat},
    removeLoop now nameOf l db n = .ok (db2, n2) →
    db2.leads = db.leads ∧ db2.pushedCompanies = db.pushedCompanies ∧
      db2.syncHistory = db.syncHistory := by
  intro l
  induction l with
  | nil =>
    intro db n db2 n2 h
    rw [removeLoop] at h
    cases h
    exact ⟨rfl, rfl, rfl⟩
  | cons cid rest ih =>
    intro db n db2 n2 h
    rw [removeLoop, insertChangeLog_valid_ok _ _ _ (by decide)] at h
    simp only [] at h
    simpa using ih h

theorem updLoop_ok_fields {current : List CampaignRow} {now : Nat} :
    ∀ {snap : List CampaignSnap} {db : DB} {n : Nat} {db2 : DB} {n2 : Nat},
    updLoop current now snap db n = .ok (db2, n2) →
    db2.leads = db.leads ∧ db2.pushedCompanies = db.pushedCompanies ∧
      db2.syncHistory = db.syncHistory := by
  intro snap
  induction snap with
  | nil =>
    intro db n db2 n2 h
    rw [updLoop] at h
    cases h
    exact ⟨rfl, rfl, rfl⟩
  | cons c rest ih =>
    intro db n db2 n2 h
    rw [updLoop] at h
    cases hf : current.find? (fun r => r.id == c.id) with
    | none =>
      rw [hf] at h
      simp only [] at h
      exact ih h
    | some cur =>
      rw [hf] at h
      simp only [] at h
      by_cases hd : cur.name ≠ c.name ∨ cur.status ≠ c.status
      · rw [if_pos hd, insertChangeLog_valid_ok _ _ _ (by decide)] at h
        simp only [] at h
        simpa using ih h
      · rw [if_neg hd] at h
        exact ih h

/-- A successful campaign reconciliation never touches the leads or
pushed-companies tables. -/
theorem update_campaigns_ok_fields {db : DB} {snap : List CampaignSnap}
    {now : Nat} {db' : DB} {stats : CampaignStats}
    (h : update_campaigns db snap now = .ok (db', stats)) :
    db'.leads = db.leads ∧ db'.pushedCompanies = db.pushedCompanies := by
  rw [update_campaigns] at h
  cases ha : addLoop (addedCampaigns snap db) now snap db 0 with
  | error e => rw [ha] at h; cases h
  | ok p1 =>
    rcases p1 with ⟨db1, n1⟩
    rw [ha] at h
    simp only [] at h
    cases hr : removeLoop now
        (fun i => ((activeCampaigns db).find? (fun r => r.id == i)).map
          (fun r => r.name)) (removedList snap db) db1 0 with
    | error e => rw [hr] at h; cases h
    | ok p2 =>
      rcases p2 with ⟨db2, n2⟩
      rw [hr] at h
      simp only [] at h
      cases hu : updLoop (activeCampaigns db) now snap db2 0 with
      | error e => rw [hu] at h; cases h
      | ok p3 =>
        rcases p3 with ⟨db3, n3⟩
        rw [hu] at h
        simp only [] at h
        cases h
        obtain ⟨hl1, hp1, _⟩ := addLoop_ok_fields ha
        obtain ⟨hl2, hp2, _⟩ := removeLoop_ok_fields hr
        obtain ⟨hl3, hp3, _⟩ := updLoop_ok_fields hu
        exact ⟨hl3.trans (hl2.trans hl1), hp3.trans (hp2.trans hp1)⟩

theorem addLeadLoop_ok_eq {cid cname : String} {added : Finset String}
    {now : Nat} :
    ∀ {snap : List LeadSnap} {db : DB} {ch : LeadChanges} {db2 : DB}
      {ch2 : LeadChanges},
    addLeadLoop cid cname added now snap db ch = .ok (db2, ch2) →
    db2 = db ∧ ch2 = ch := by
  intro snap
  induction snap with
  | nil =>
    intro db ch db2 ch2 h
    rw [addLeadLoop] at h
    cases h
    exact ⟨rfl, rfl⟩
  | cons l rest ih =>
    intro db ch db2 ch2 h
    rw [addLeadLoop] at h
    by_cases hc : l.id ∈ added
    · rw [if_pos hc] at h
      cases hr : insertLeadRow (newLeadRow cid now l) db.leads with
      | error e => rw [hr] at h; cases h
      | ok rows =>
        rw [hr, insertChangeLog_err _ _ _ (by decide)] at h
        cases h
    · rw [if_neg hc] at h
      exact ih h

theorem removeLeadLoop_ok_eq {cid cname : String}
    {lookup : String → Option LeadRow} {now : Nat} :
    ∀ {l : List String} {db : DB} {ch : LeadChanges} {db2 : DB}
      {ch2 : LeadChanges},
    removeLeadLoop cid cname lookup now l db ch = .ok (db2, ch2) →
    db2 = db ∧ ch2 = ch := by
  intro l
  induction l with
  | nil =>
    intro db ch db2 ch2 h
    rw [removeLeadLoop] at h
    cases h
    exact ⟨rfl, rfl⟩
  | cons lid rest ih =>
    intro db ch db2 ch2 h
    rw [removeLeadLoop, insertChangeLog_err _ _ _ (by decide)] at h
    cases h

/-- Whatever `track_lead_changes` does, it never touches the
pushed-companies (or campaigns) tables. -/
theorem track_lead_changes_fields (cid cname : String)
    (newLeads : List LeadSnap) (now : Nat) (db : DB) :
    (track_lead_changes cid cname newLeads now db).2.pushedCompanies =
      db.pushedCompanies ∧
    (track_lead_changes cid cname newLeads now db).2.campaigns =
      db.campaigns := by
  rw [track_lead_changes]
  cases htr : trackLeadChangesE cid cname newLeads now db with
  | error e => exact ⟨rfl, rfl⟩
  | ok p =>
    rcases p with ⟨ch, db2⟩
    rw [trackLeadChangesE] at htr
    simp only [] at htr
    split at htr
    · exact Except.noConfusion htr
    · rename_i db1 ch1 heq
      split at htr
      · exact Except.noConfusion htr
      · rename_i db2' ch2 heq2
        obtain ⟨hdb1, -⟩ := addLeadLoop_ok_eq heq
        obtain ⟨hdb2, -⟩ := removeLeadLoop_ok_eq heq2
        subst hdb1
        subst hdb2
        split at htr
        · rw [insertChangeLog_valid_ok _ _ _ (by decide)] at htr
          cases htr
          exact ⟨rfl, rfl⟩
        · cases htr
          exact ⟨rfl, rfl⟩

theorem get_pushed_congr {db1 db2 : DB} (c : String)
    (h : db1.pushedCompanies = db2.pushedCompanies) :
    get_pushed_companies db1 c = get_pushed_companies db2 c := by
  simp [get_pushed_companies, pushedCompaniesList, h]

theorem pushAll_pushed_mono (cid : String) (leads : List LeadSnap)
    (w : Bool) (now : Nat) (db : DB) (c : String) :
    get_pushed_companies db c ⊆
      get_pushed_companies ((push_all_companies cid leads w now db).2) c := by
  rw [push_all_companies]
  by_cases h1 : leads.isEmpty = true
  · rw [if_pos h1]
  · rw [if_neg h1]
    by_cases h2 : (extractCompaniesList leads).isEmpty = true
    · rw [if_pos h2]
    · rw [if_neg h2]
      cases w with
      | false => rw [if_neg (by simp)]
      | true =>
        rw [if_pos rfl]
        simp only [log_push_activity_eq]
        exact get_pushed_mark_mono db cid _ now c

/-- Every operation of the engine can only enlarge a campaign's pushed
set. -/
theorem applyOp_pushed_mono (op : Op) (db : DB) (c : String) :
    get_pushed_companies db c ⊆ get_pushed_companies (applyOp op db) c := by
  cases op with
  | updateCampaignsOp snap now =>
    simp only [applyOp]
    cases h : update_campaigns db snap now with
    | error e => exact subset_rfl
    | ok p =>
      rcases p with ⟨db', stats⟩
      rw [get_pushed_congr c (update_campaigns_ok_fields h).2]
  | trackLeadChangesOp cid cname newLeads now =>
    simp only [applyOp]
    rw [get_pushed_congr c (track_lead_changes_fields cid cname newLeads now db).1]
  | markPushedOp cid names now =>
    simp only [applyOp]
    exact get_pushed_mark_mono db cid names now c
  | logPushActivityOp cid pushType count now =>
    simp only [applyOp, log_push_activity_eq]
    exact subset_rfl
  | pushAllOp cid leads webhookOk now =>
    simp only [applyOp]
    exact pushAll_pushed_mono cid leads webhookOk now db c
  | pushNewOp cid leads webhookOk now =>
    simp only [applyOp]
    rcases hres : push_new_companies cid leads webhookOk now db with ⟨res, db1⟩
    cases res with
    | err msg =>
      have hdb1 : db1 = db := by
        have h1 : (push_new_companies cid leads webhookOk now db).1 =
            .err msg := by rw [hres]
        have h2 := pushNew_err_snd h1
        rw [hres] at h2
        exact h2
      rw [hdb1]
    | ok n cs =>
      obtain ⟨-, hdb⟩ := pushNew_ok_spec hres
      subst hdb
      exact get_pushed_mark_mono db cid _ now c

/-- C3.  After `mark_companies_as_pushed(c, S)`, every later read of
the pushed set for `c` — after any further sequence of engine
operations — is a superset of `S`; and no single engine operation ever
removes an element from a campaign's pushed set. -/
theorem pushed_set_monotonic (db : DB) (c : String) (S : List String)
    (now : Nat) (ops : List Op) :
    (∀ x ∈ S, x ∈ get_pushed_companies
        (applyOps ops (mark_companies_as_pushed db c S now)) c) ∧
    ∀ (op : Op) (d : DB),
      get_pushed_companies d c ⊆ get_pushed_companies (applyOp op d) c := by
  constructor
  · intro x hx
    have h0 : x ∈ get_pushed_companies (mark_companies_as_pushed db c S now) c := by
      rw [get_pushed_mark_self]
      exact Finset.mem_union_right _ (List.mem_toFinset.2 hx)
    have hmono : ∀ (l : List Op) (d : DB),
        get_pushed_companies d c ⊆ get_pushed_companies (applyOps l d) c := by
      intro l
      induction l with
      | nil => intro d; simp [applyOps]
      | cons op rest ih =>
        intro d
        rw [applyOps, List.foldl_cons]
        exact (applyOp_pushed_mono op d c).trans (ih (applyOp op d))
    exact hmono ops _ h0
  · intro op d
    exact applyOp_pushed_mono op d c

/-- C3, witness: a concrete marked name survives a subsequent
reconciliation operation. -/
theorem pushed_set_monotonic_witness :
    "Acme" ∈ get_pushed_companies
      (applyOps [Op.updateCampaignsOp [] 1]
        (mark_companies_as_pushed {} "A" ["Acme"] 0)) "A" :=
  (pushed_set_monotonic {} "A" ["Acme"] 0 [Op.updateCampaignsOp [] 1]).1
    "Acme" (by decide)

/-- C2, witness for the amended theorem: on a fresh store and a
one-company export the delta is non-empty and is pushed exactly. -/
theorem pushNew_delta_spec_witness :
    ∃ db', push_new_companies "A" cxLeads true 0 {} =
        (.ok (newCompaniesList {} "A" cxLeads).length
          (newCompaniesList {} "A" cxLeads), db') ∧
      (newCompaniesList {} "A" cxLeads).Nodup ∧
      (newCompaniesList {} "A" cxLeads).toFinset =
        get_new_companies {} "A" (extractCompanies cxLeads) ∧
      get_pushed_companies db' "A" =
        get_pushed_companies {} "A" ∪
          get_new_companies {} "A" (extractCompanies cxLeads) ∧
      ∀ c, c ≠ "A" → get_pushed_companies db' c = get_pushed_companies {} c :=
  (pushNew_delta_spec "A" cxLeads 0 {} (by decide)).2 (by decide)

/-! ### C10 — a soft-deleted campaign blocks re-adding its id -/

/-- If some snapshot entry is classified as added while a stored row
(active or not) already carries its id, the add loop raises the
PRIMARY-KEY violation. -/
theorem addLoop_err {added : Finset String} {now : Nat} :
    ∀ {snap : List CampaignSnap} {db : DB} {n : Nat},
    (∃ c ∈ snap, c.id ∈ added ∧ ∃ r ∈ db.campaigns, r.id = c.id) →
    ∃ msg, addLoop added now snap db n = .error msg := by
  intro snap
  induction snap with
  | nil =>
    rintro db n ⟨c, hc, -⟩
    exact absurd hc (List.not_mem_nil c)
  | cons c0 rest ih =>
    rintro db n ⟨c, hc, hcadd, r, hrmem, hrid⟩
    by_cases h0 : c0.id ∈ added
    · by_cases hconf : db.campaigns.any (fun x => x.id == c0.id) = true
      · refine ⟨"UNIQUE constraint failed: campaigns.id", ?_⟩
        rw [addLoop, if_pos h0, insertCampaignRow]
        simp only [newCampaignRow]
        rw [if_pos hconf]
      · have hne : c.id ≠ c0.id := by
          intro he
          apply hconf
          exact List.any_eq_true.2 ⟨r, hrmem, by simp [hrid, he]⟩
        have hcrest : c ∈ rest := by
          rcases List.mem_cons.1 hc with rfl | h
          · exact absurd rfl hne
          · exact h
        rw [addLoop, if_pos h0, insertCampaignRow]
        simp only [newCampaignRow]
        rw [if_neg hconf, insertChangeLog_valid_ok _ _ _ (by decide)]
        simp only []
        exact ih ⟨c, hcrest, hcadd, r, List.mem_append_left _ hrmem, hrid⟩
    · have hcrest : c ∈ rest := by
        rcases List.mem_cons.1 hc with rfl | h
        · exact absurd hcadd h0
        · exact h
      rw [addLoop, if_neg h0]
      exact ih ⟨c, hcrest, hcadd, r, hrmem, hrid⟩

theorem mem_currentCampaignIds {db : DB} {i : String} :
    i ∈ currentCampaignIds db ↔
      ∃ r ∈ db.campaigns, r.isActive = true ∧ r.id = i := by
  simp only [currentCampaignIds, activeCampaigns, List.mem_toFinset,
    List.mem_map, List.mem_filter]
  constructor
  · rintro ⟨r, ⟨hr, ha⟩, rfl⟩
    exact ⟨r, hr, ha, rfl⟩
  · rintro ⟨r, hr, ha, rfl⟩
    exact ⟨r, ⟨hr, ha⟩, rfl⟩

/-- C10.  A campaign row stored with `active = false` whose id
reappears in the snapshot is classified as *added* (the current id set
reads active rows only); the fresh `INSERT` then violates the primary
key, `update_campaigns` raises, the transaction rolls back, and the
soft-deleted row is never reactivated. -/
theorem soft_deleted_campaign_blocks_readd (db : DB)
    (snap : List CampaignSnap) (now : Nat) (r : CampaignRow)
    (hpk : (db.campaigns.map (fun x => x.id)).Nodup)
    (hr : r ∈ db.campaigns) (hinact : r.isActive = false)
    (hid : r.id ∈ snapshotIds snap) :
    r.id ∈ addedCampaigns snap db ∧
    (∃ msg, update_campaigns db snap now = .error msg) ∧
    applyOp (.updateCampaignsOp snap now) db = db := by
  have hcur : r.id ∉ currentCampaignIds db := by
    intro hmem
    rcases mem_currentCampaignIds.1 hmem with ⟨r2, hr2, hact2, hid2⟩
    have : r2 = r := List.inj_on_of_nodup_map hpk hr2 hr hid2
    rw [this] at hact2
    rw [hinact] at hact2
    cases hact2
  have hadded : r.id ∈ addedCampaigns snap db :=
    Finset.mem_sdiff.2 ⟨hid, hcur⟩
  have hc : ∃ c ∈ snap, c.id = r.id := by
    simpa [snapshotIds, List.mem_toFinset, List.mem_map, eq_comm]
      using hid
  rcases hc with ⟨c, hcmem, hcid⟩
  have herr0 : ∃ msg, addLoop (addedCampaigns snap db) now snap db 0 =
      .error msg :=
    addLoop_err ⟨c, hcmem, by rw [hcid]; exact hadded, r, hr, hcid.symm⟩
  obtain ⟨msg, herr⟩ := herr0
  have herr2 : update_campaigns db snap now = .error msg := by
    rw [update_campaigns, herr]
  refine ⟨hadded, ⟨msg, herr2⟩, ?_⟩
  simp only [applyOp, herr2]

/-- An inactive stored row used by the C10 witness. -/
def cxInactiveRow : CampaignRow :=
  { id := "A", name := "X", status := "running",
    createdAt := 0, lastUpdated := 0, isActive := false }

/-- A store holding only that soft-deleted campaign. -/
def cxInactiveDB : DB := { campaigns := [cxInactiveRow] }

/-- C10, witness: re-sending the soft-deleted campaign's id makes
the reconciliation fail and leaves the store unchanged. -/
theorem soft_deleted_campaign_blocks_readd_witness :
    "A" ∈ addedCampaigns [{ id := "A", name := "X", status := "running" }]
      cxInactiveDB ∧
    (∃ msg, update_campaigns cxInactiveDB
      [{ id := "A", name := "X", status := "running" }] 1 = .error msg) ∧
    applyOp (.updateCampaignsOp
      [{ id := "A", name := "X", status := "running" }] 1) cxInactiveDB =
      cxInactiveDB :=
  soft_deleted_campaign_blocks_readd cxInactiveDB
    [{ id := "A", name := "X", status := "running" }] 1 cxInactiveRow
    (by decide) (by decide) (by decide) (by decide)

/-! ### Phase characterisation of `update_campaigns` -/

/-- A successful add loop appends exactly the rows of the snapshot
entries classified as added, in snapshot order. -/
theorem addLoop_ok_campaigns {added : Finset String} {now : Nat} :
    ∀ {snap : List CampaignSnap} {db : DB} {n : Nat} {db2 : DB} {n2 : Nat},
    addLoop added now snap db n = .ok (db2, n2) →
    db2.campaigns = db.campaigns ++
      ((snap.filter (fun c => decide (c.id ∈ added))).map (newCampaignRow now)) := by
  intro snap
  induction snap with
  | nil =>
    intro db n db2 n2 h
    rw [addLoop] at h
    cases h
    simp
  | cons c rest ih =>
    intro db n db2 n2 h
    rw [addLoop] at h
    by_cases hc : c.id ∈ added
    · rw [if_pos hc] at h
      cases hr : insertCampaignRow (newCampaignRow now c) db.campaigns with
      | error e => rw [hr] at h; cases h
      | ok rows =>
        have hrows : rows = db.campaigns ++ [newCampaignRow now c] := by
          rw [insertCampaignRow] at hr
          split at hr
          · cases hr
          · cases hr; rfl
        rw [hr, insertChangeLog_valid_ok _ _ _ (by decide)] at h
        simp only [] at h
        rw [ih h]
        simp only [hrows, List.filter_cons, decide_eq_true_eq, hc, if_pos,
          List.map_cons, List.append_assoc, List.singleton_append]
    · rw [if_neg hc] at h
      rw [ih h]
      simp [List.filter_cons, hc]

/-- A successful add loop implies every added snapshot id was absent
from the whole campaigns table at entry. -/
theorem addLoop_ok_fresh {added : Finset String} {now : Nat} :
    ∀ {snap : List CampaignSnap} {db : DB} {n : Nat} {db2 : DB} {n2 : Nat},
    addLoop added now snap db n = .ok (db2, n2) →
    ∀ c ∈ snap, c.id ∈ added → ∀ r ∈ db.campaigns, r.id ≠ c.id := by
  intro snap
  induction snap with
  | nil =>
    intro db n db2 n2 h c hc
    exact absurd hc (List.not_mem_nil c)
  | cons c0 rest ih =>
    intro db n db2 n2 h c hc hcadd r hrmem
    rw [addLoop] at h
    by_cases h0 : c0.id ∈ added
    · rw [if_pos h0] at h
      cases hr : insertCampaignRow (newCampaignRow now c0) db.campaigns with
      | error e => rw [hr] at h; cases h
      | ok rows =>
        have hfresh : ∀ r' ∈ db.campaigns, r'.id ≠ c0.id := by
          rw [insertCampaignRow] at hr
          split at hr
          · cases hr
          · rename_i hany
            intro r' hr' he
            exact hany (List.any_eq_true.2 ⟨r', hr', by simp [newCampaignRow, he]⟩)
        have hrows : rows = db.campaigns ++ [newCampaignRow now c0] := by
          rw [insertCampaignRow] at hr
          split at hr
          · cases hr
          · cases hr; rfl
        rw [hr, insertChangeLog_valid_ok _ _ _ (by decide)] at h
        simp only [] at h
        rcases List.mem_cons.1 hc with rfl | hcr
        · exact hfresh r hrmem
        · exact ih h c hcr hcadd r (by rw [hrows]; exact List.mem_append_left _ hrmem)
    · rw [if_neg h0] at h
      rcases List.mem_cons.1 hc with rfl | hcr
      · exact absurd hcadd h0
      · exact ih h c hcr hcadd r hrmem

/-- A successful add loop only appends `campaign_added` entries to the
change log. -/
theorem addLoop_ok_log {added : Finset String} {now : Nat} :
    ∀ {snap : List CampaignSnap} {db : DB} {n : Nat} {db2 : DB} {n2 : Nat},
    addLoop added now snap db n = .ok (db2, n2) →
    ∃ es, db2.changeLog = db.changeLog ++ es ∧
      ∀ e ∈ es, e.changeType = "campaign_added" := by
  intro snap
  induction snap with
  | nil =>
    intro db n db2 n2 h
    rw [addLoop] at h
    cases h
    exact ⟨[], by simp, by simp⟩
  | cons c rest ih =>
    intro db n db2 n2 h
    rw [addLoop] at h
    by_cases hc : c.id ∈ added
    · rw [if_pos hc] at h
      cases hr : insertCampaignRow (newCampaignRow now c) db.campaigns with
      | error e => rw [hr] at h; cases h
      | ok rows =>
        rw [hr, insertChangeLog_valid_ok _ _ _ (by decide)] at h
        simp only [] at h
        rcases ih h with ⟨es, hlog, hty⟩
        refine ⟨{ id := db.changeLog.length + 1,
                  changeType := "campaign_added", campaignId := some c.id,
                  campaignName := some c.name, timestamp := now } :: es, ?_, ?_⟩
        · rw [hlog]
          simp
        · intro e he
          rcases List.mem_cons.1 he with rfl | he
          · rfl
          · exact hty e he
    · rw [if_neg hc] at h
      exact ih h

/-- Soft-deletion applied to a row when its id is among the removed
ids (proof-level abbreviation of the remove loop's UPDATE). -/
def deactivateIf (l : List String) (now : Nat) (r : CampaignRow) : CampaignRow :=
  if r.id ∈ l then { r with isActive := false, lastUpdated := now } else r

theorem deactivateIf_step (cid : String) (rest : List String) (now : Nat)
    (r : CampaignRow) :
    deactivateIf rest now
        (if r.id = cid then { r with isActive := false, lastUpdated := now } else r)
      = deactivateIf (cid :: rest) now r := by
  by_cases h : r.id = cid
  · rw [if_pos h, deactivateIf, deactivateIf]
    have hm : r.id ∈ cid :: rest := by
      rw [h]; exact List.mem_cons_self _ _
    rw [if_pos hm]
    by_cases h2 : ({ r with isActive := false, lastUpdated := now } :
        CampaignRow).id ∈ rest
    · rw [if_pos h2]
    · rw [if_neg h2]
  · rw [if_neg h, deactivateIf, deactivateIf]
    by_cases h2 : r.id ∈ rest
    · have hm : r.id ∈ cid :: rest := List.mem_cons_of_mem _ h2
      rw [if_pos h2, if_pos hm]
    · have hm : r.id ∉ cid :: rest := by
        simp [List.mem_cons, h, h2]
      rw [if_neg h2, if_neg hm]

/-- Closed form of the remove loop: every listed id's rows are
soft-deleted, and one `campaign_removed` entry per listed id is
appended, in order. -/
theorem removeLoop_ok_spec {now : Nat} {nameOf : String → Option String} :
    ∀ {l : List String} {db : DB} {n : Nat} {db2 : DB} {n2 : Nat},
    removeLoop now nameOf l db n = .ok (db2, n2) →
    db2.campaigns = db.campaigns.map (deactivateIf l now) ∧
    ∃ es, db2.changeLog = db.changeLog ++ es ∧
      es.map (fun e => (e.changeType, e.campaignId)) =
        l.map (fun cid => ("campaign_removed", some cid)) := by
  intro l
  induction l with
  | nil =>
    intro db n db2 n2 h
    rw [removeLoop] at h
    cases h
    refine ⟨?_, [], by simp, by simp⟩
    have : db.campaigns.map (deactivateIf [] now) =
        db.campaigns.map (fun r => r) :=
      List.map_congr_left (fun r _ => by
        rw [deactivateIf, if_neg (List.not_mem_nil _)])
    rw [this, List.map_id']
  | cons cid rest ih =>
    intro db n db2 n2 h
    rw [removeLoop, insertChangeLog_valid_ok _ _ _ (by decide)] at h
    simp only [] at h
    obtain ⟨hcamp, es, hlog, hmap⟩ := ih h
    refine ⟨?_, ?_⟩
    · rw [hcamp]
      simp only [List.map_map]
      exact List.map_congr_left (fun r _ => deactivateIf_step cid rest now r)
    · refine ⟨{ id := db.changeLog.length + 1,
                changeType := "campaign_removed", campaignId := some cid,
                campaignName := nameOf cid, timestamp := now } :: es, ?_, ?_⟩
      · rw [hlog]
        simp
      · simp only [List.map_cons, hmap]

/-- The update loop leaves `find? p` unchanged whenever `p` selects a
single id `i` and every snapshot entry carrying that id is skipped
(because the captured dict holds no row for it). -/
theorem updLoop_ok_find?_pres {current : List CampaignRow} {now : Nat}
    {i : String} {p : CampaignRow → Bool}
    (hp1 : ∀ (c : CampaignSnap) (r : CampaignRow),
      p ({ r with name := c.name, status := c.status, lastUpdated := now }) = p r)
    (hp2 : ∀ r, p r = true → r.id = i) :
    ∀ {snap : List CampaignSnap} {db : DB} {n : Nat} {db2 : DB} {n2 : Nat},
    updLoop current now snap db n = .ok (db2, n2) →
    (∀ c ∈ snap, c.id = i → current.find? (fun x => x.id == c.id) = none) →
    db2.campaigns.find? p = db.campaigns.find? p := by
  intro snap
  induction snap with
  | nil =>
    intro db n db2 n2 h hskip
    rw [updLoop] at h
    cases h
    rfl
  | cons c rest ih =>
    intro db n db2 n2 h hskip
    rw [updLoop] at h
    cases hf : current.find? (fun x => x.id == c.id) with
    | none =>
      rw [hf] at h
      simp only [] at h
      exact ih h (fun c' hc' => hskip c' (List.mem_cons_of_mem _ hc'))
    | some cur =>
      rw [hf] at h
      simp only [] at h
      by_cases hci : c.id = i
      · rw [hskip c (List.mem_cons_self _ _) hci] at hf
        cases hf
      · by_cases hd : cur.name ≠ c.name ∨ cur.status ≠ c.status
        · rw [if_pos hd, insertChangeLog_valid_ok _ _ _ (by decide)] at h
          simp only [] at h
          rw [ih h (fun c' hc' => hskip c' (List.mem_cons_of_mem _ hc'))]
          apply find?_map_pres_id
          · intro a
            by_cases ha : a.id = c.id
            · rw [if_pos ha, hp1]
            · rw [if_neg ha]
          · intro a hpa
            have hane : a.id ≠ c.id := by
              rw [hp2 a hpa]
              exact fun he => hci he.symm
            rw [if_neg hane]
        · rw [if_neg hd] at h
          exact ih h (fun c' hc' => hskip c' (List.mem_cons_of_mem _ hc'))

/-- A successful update loop only appends `campaign_updated` entries. -/
theorem updLoop_ok_log {current : List CampaignRow} {now : Nat} :
    ∀ {snap : List CampaignSnap} {db : DB} {n : Nat} {db2 : DB} {n2 : Nat},
    updLoop current now snap db n = .ok (db2, n2) →
    ∃ es, db2.changeLog = db.changeLog ++ es ∧
      ∀ e ∈ es, e.changeType = "campaign_updated" := by
  intro snap
  induction snap with
  | nil =>
    intro db n db2 n2 h
    rw [updLoop] at h
    cases h
    exact ⟨[], by simp, by simp⟩
  | cons c rest ih =>
    intro db n db2 n2 h
    rw [updLoop] at h
    cases hf : current.find? (fun x => x.id == c.id) with
    | none =>
      rw [hf] at h
      simp only [] at h
      exact ih h
    | some cur =>
      rw [hf] at h
      simp only [] at h
      by_cases hd : cur.name ≠ c.name ∨ cur.status ≠ c.status
      · rw [if_pos hd, insertChangeLog_valid_ok _ _ _ (by decide)] at h
        simp only [] at h
        rcases ih h with ⟨es, hlog, hty⟩
        simp only [] at hlog
        refine ⟨{ id := db.changeLog.length + 1,
                  changeType := "campaign_updated",
                  campaignId := some c.id, campaignName := some c.name,
                  oldValue := some (jsonNameStatus cur.name cur.status),
                  newValue := some (jsonNameStatus c.name c.status),
                  timestamp := now } :: es, ?_, ?_⟩
        · rw [hlog]
          simp
        · intro e he
          rcases List.mem_cons.1 he with rfl | he
          · rfl
          · exact hty e he
      · rw [if_neg hd] at h
        exact ih h

/-- Unpacking a successful `update_campaigns` run into its three phase
equations. -/
theorem update_campaigns_ok_elim {db : DB} {snap : List CampaignSnap}
    {now : Nat} {db' : DB} {stats : CampaignStats}
    (h : update_campaigns db snap now = .ok (db', stats)) :
    ∃ db1 n1 db2 n2 db3 n3,
      addLoop (addedCampaigns snap db) now snap db 0 = .ok (db1, n1) ∧
      removeLoop now
        (fun i => ((activeCampaigns db).find? (fun r => r.id == i)).map
          (fun r => r.name)) (removedList snap db) db1 0 = .ok (db2, n2) ∧
      updLoop (activeCampaigns db) now snap db2 0 = .ok (db3, n3) ∧
      db'.campaigns = db3.campaigns ∧ db'.changeLog = db3.changeLog ∧
      stats = { campaignsAdded := n1, campaignsRemoved := n2,
                campaignsUpdated := n3 } := by
  rw [update_campaigns] at h
  cases ha : addLoop (addedCampaigns snap db) now snap db 0 with
  | error e => rw [ha] at h; cases h
  | ok p1 =>
    rcases p1 with ⟨db1, n1⟩
    rw [ha] at h
    simp only [] at h
    cases hrm : removeLoop now
        (fun i => ((activeCampaigns db).find? (fun r => r.id == i)).map
          (fun r => r.name)) (removedList snap db) db1 0 with
    | error e => rw [hrm] at h; cases h
    | ok p2 =>
      rcases p2 with ⟨db2, n2⟩
      rw [hrm] at h
      simp only [] at h
      cases hu : updLoop (activeCampaigns db) now snap db2 0 with
      | error e => rw [hu] at h; cases h
      | ok p3 =>
        rcases p3 with ⟨db3, n3⟩
        rw [hu] at h
        simp only [] at h
        cases h
        exact ⟨db1, n1, db2, n2, db3, n3, rfl, hrm, hu, rfl, rfl, rfl⟩

/-- In a table whose ids are pairwise distinct, looking a stored row up
by its own id finds exactly that row. -/
theorem find?_id_of_mem {l : List CampaignRow}
    (hnd : (l.map (fun x => x.id)).Nodup) {r : CampaignRow} (hr : r ∈ l) :
    l.find? (fun x => x.id == r.id) = some r := by
  induction l with
  | nil => exact absurd hr (List.not_mem_nil r)
  | cons x xs ih =>
    rcases List.mem_cons.1 hr with rfl | hr'
    · exact List.find?_cons_of_pos _ (by simp)
    · have hx : x.id ≠ r.id := by
        intro he
        have : x.id ∈ xs.map (fun y => y.id) :=
          he ▸ List.mem_map.2 ⟨r, hr', rfl⟩
        exact (List.nodup_cons.1 hnd).1 this
      rw [List.find?_cons_of_neg _ (by simp [hx])]
      exact ih (List.nodup_cons.1 hnd).2 hr'

theorem removedList_nodup (snap : List CampaignSnap) (db : DB) :
    (removedList snap db).Nodup :=
  (List.nodup_dedup _).filter _

theorem mem_removedList {snap : List CampaignSnap} {db : DB} {i : String} :
    i ∈ removedList snap db ↔
      i ∈ currentCampaignIds db ∧ i ∉ snapshotIds snap := by
  simp [removedList, List.mem_filter, List.mem_dedup, currentCampaignIds,
    List.mem_toFinset]

/-! ### C6 — soft delete retains the row and logs exactly once -/

/-- C6.  An active campaign whose id is absent from the snapshot is
soft-deleted by a successful reconciliation: the stored row remains
queryable by its id with its original id, name, status and createdAt,
only `active` (set to false) and `lastUpdated` change, and exactly one
`campaign_removed` change-log entry for that campaign is appended. -/
theorem campaign_soft_delete (db : DB) (snap : List CampaignSnap)
    (now : Nat) (r : CampaignRow) (db' : DB) (stats : CampaignStats)
    (hpk : (db.campaigns.map (fun x => x.id)).Nodup)
    (hr : r ∈ db.campaigns) (hact : r.isActive = true)
    (hid : r.id ∉ snapshotIds snap)
    (h1 : update_campaigns db snap now = .ok (db', stats)) :
    db'.campaigns.find? (fun x => x.id == r.id) =
      some { r with isActive := false, lastUpdated := now } ∧
    ∃ es, db'.changeLog = db.changeLog ++ es ∧
      (es.filter (fun e => e.changeType == "campaign_removed" &&
        e.campaignId == some r.id)).length = 1 := by
  obtain ⟨db1, n1, db2, n2, db3, n3, ha, hrm, hu, hcamp', hlog', -⟩ :=
    update_campaigns_ok_elim h1
  have h0 : db.campaigns.find? (fun x => x.id == r.id) = some r :=
    find?_id_of_mem hpk hr
  have hc1 : db1.campaigns.find? (fun x => x.id == r.id) = some r := by
    rw [addLoop_ok_campaigns ha]
    exact find?_append_some _ h0
  have hmemrm : r.id ∈ removedList snap db :=
    mem_removedList.2 ⟨mem_currentCampaignIds.2 ⟨r, hr, hact, rfl⟩, hid⟩
  obtain ⟨hcamp2, es_rm, hlog2, hmap2⟩ := removeLoop_ok_spec hrm
  have hdpres : ∀ a : CampaignRow,
      ((deactivateIf (removedList snap db) now a).id == r.id) = (a.id == r.id) := by
    intro a
    rw [deactivateIf]
    by_cases hm : a.id ∈ removedList snap db
    · rw [if_pos hm]
    · rw [if_neg hm]
  have hc2 : db2.campaigns.find? (fun x => x.id == r.id)
      = some { r with isActive := false, lastUpdated := now } := by
    rw [hcamp2, find?_map_pres _ _ _ hdpres, hc1, Option.map_some']
    rw [deactivateIf, if_pos hmemrm]
  have hc3 : db3.campaigns.find? (fun x => x.id == r.id)
      = db2.campaigns.find? (fun x => x.id == r.id) := by
    refine updLoop_ok_find?_pres (i := r.id) (p := fun x => x.id == r.id)
      (fun c a => rfl) (fun a hpa => by simpa using hpa) hu ?_
    intro c hc hceq
    exact absurd (List.mem_toFinset.2 (List.mem_map.2 ⟨c, hc, hceq⟩)) hid
  refine ⟨by rw [hcamp', hc3, hc2], ?_⟩
  obtain ⟨es_add, hlogA, htyA⟩ := addLoop_ok_log ha
  obtain ⟨es_upd, hlogU, htyU⟩ := updLoop_ok_log hu
  refine ⟨es_add ++ es_rm ++ es_upd, ?_, ?_⟩
  · rw [hlog', hlogU, hlog2, hlogA]
    simp [List.append_assoc]
  · have hfA : es_add.filter (fun e => e.changeType == "campaign_removed" &&
        e.campaignId == some r.id) = [] := by
      rw [List.filter_eq_nil_iff]
      intro e he
      simp [htyA e he]
    have hfU : es_upd.filter (fun e => e.changeType == "campaign_removed" &&
        e.campaignId == some r.id) = [] := by
      rw [List.filter_eq_nil_iff]
      intro e he
      simp [htyU e he]
    have hfR : (es_rm.filter (fun e => e.changeType == "campaign_removed" &&
        e.campaignId == some r.id)).length = 1 := by
      rw [← List.countP_eq_length_filter]
      have hq : (List.countP (fun e => e.changeType == "campaign_removed" &&
          e.campaignId == some r.id) es_rm) =
          List.countP
            (fun t : String × Option String =>
              t.1 == "campaign_removed" && t.2 == some r.id)
            (es_rm.map (fun e => (e.changeType, e.campaignId))) := by
        rw [List.countP_map]
        rfl
      rw [hq, hmap2, List.countP_map]
      have : (fun t : String × Option String =>
            t.1 == "campaign_removed" && t.2 == some r.id) ∘
          (fun cid => (("campaign_removed" : String), some cid)) =
          fun cid => cid == r.id := by
        funext cid
        simp
      rw [this]
      exact List.count_eq_one_of_mem (removedList_nodup snap db) hmemrm
    rw [List.filter_append, List.filter_append, hfA, hfU]
    simpa using hfR

/-- The single active campaign row of the C6 witness store. -/
def cxActiveRow : CampaignRow :=
  { id := "B", name := "Y", status := "running",
    createdAt := 0, lastUpdated := 0, isActive := true }

/-- A store holding only that active campaign. -/
def cxActiveDB : DB := { campaigns := [cxActiveRow] }

/-- The store after reconciling the empty snapshot at time 1. -/
def cxAfterDB : DB :=
  { campaigns := [{ id := "B", name := "Y", status := "running",
                    createdAt := 0, lastUpdated := 1, isActive := false }],
    changeLog := [{ id := 1, changeType := "campaign_removed",
                    campaignId := some "B", campaignName := some "Y",
                    timestamp := 1 }],
    syncHistory := [{ id := 1, syncType := "incremental",
                      campaignsProcessed := 0, campaignsRemoved := 1,
                      timestamp := 1 }] }

/-- C6, witness: reconciling the empty snapshot soft-deletes the
stored campaign, keeps the row queryable with its original fields, and
appends exactly one `campaign_removed` entry. -/
theorem campaign_soft_delete_witness :
    cxAfterDB.campaigns.find? (fun x => x.id == cxActiveRow.id) =
      some { cxActiveRow with isActive := false, lastUpdated := 1 } ∧
    ∃ es, cxAfterDB.changeLog = cxActiveDB.changeLog ++ es ∧
      (es.filter (fun e => e.changeType == "campaign_removed" &&
        e.campaignId == some cxActiveRow.id)).length = 1 :=
  campaign_soft_delete cxActiveDB [] 1 cxActiveRow cxAfterDB
    { campaignsAdded := 0, campaignsRemoved := 1, campaignsUpdated := 0 }
    (by decide) (by decide) (by decide) (by decide) (by rfl)

/-! ### C4 — idempotence of the campaign reconciliation -/

/-- Looking up an added snapshot entry among the freshly inserted rows
finds its own row (snapshot ids pairwise distinct). -/
theorem find?_newRows {added : Finset String} {now : Nat} :
    ∀ {snap : List CampaignSnap}, (snap.map (fun c => c.id)).Nodup →
    ∀ {c : CampaignSnap}, c ∈ snap → c.id ∈ added →
    ((snap.filter (fun x => decide (x.id ∈ added))).map
      (newCampaignRow now)).find? (fun x => x.isActive && x.id == c.id) =
      some (newCampaignRow now c) := by
  intro snap
  induction snap with
  | nil =>
    intro _ c hc
    exact absurd hc (List.not_mem_nil c)
  | cons x xs ih =>
    intro hnd c hc hcadd
    rcases List.mem_cons.1 hc with rfl | hcr
    · rw [List.filter_cons, if_pos (by simpa using hcadd), List.map_cons]
      exact List.find?_cons_of_pos _ (by simp [newCampaignRow])
    · have hne : x.id ≠ c.id := by
        intro he
        have hmm : c.id ∈ xs.map (fun y => y.id) :=
          List.mem_map.2 ⟨c, hcr, rfl⟩
        rw [← he] at hmm
        exact (List.nodup_cons.1 hnd).1 hmm
      by_cases hx : x.id ∈ added
      · rw [List.filter_cons, if_pos (by simpa using hx), List.map_cons,
          List.find?_cons_of_neg _ (by simp [newCampaignRow, hne])]
        exact ih (List.nodup_cons.1 hnd).2 hcr hcadd
      · rw [List.filter_cons, if_neg (by simpa using hx)]
        exact ih (List.nodup_cons.1 hnd).2 hcr hcadd

/-- Soft-deleting the listed ids leaves the active-row lookup of any
unlisted id unchanged. -/
theorem deact_pActive_pres {l : List String} {now : Nat} {i : String}
    (hi : i ∉ l) (rows : List CampaignRow) :
    (rows.map (deactivateIf l now)).find?
        (fun x => x.isActive && x.id == i) =
      rows.find? (fun x => x.isActive && x.id == i) := by
  apply find?_map_pres_id
  · intro a
    rw [deactivateIf]
    by_cases hm : a.id ∈ l
    · rw [if_pos hm]
      have hne : (a.id == i) = false := by
        simp only [beq_eq_false_iff_ne, ne_eq]
        intro he
        exact hi (he ▸ hm)
      simp [hne]
    · rw [if_neg hm]
  · intro a hpa
    have hai : a.id = i := by
      simp only [Bool.and_eq_true, beq_iff_eq] at hpa
      exact hpa.2
    rw [deactivateIf, if_neg (by rw [hai]; exact hi)]

/-- Soft-deleting a listed id leaves no active row with that id. -/
theorem deact_pActive_none {l : List String} {now : Nat} {i : String}
    (hi : i ∈ l) (rows : List CampaignRow) :
    (rows.map (deactivateIf l now)).find?
      (fun x => x.isActive && x.id == i) = none := by
  rw [List.find?_eq_none]
  intro b hb
  rcases List.mem_map.1 hb with ⟨a, ha, rfl⟩
  rw [deactivateIf]
  by_cases hm : a.id ∈ l
  · rw [if_pos hm]
    simp
  · rw [if_neg hm]
    have hne : a.id ≠ i := fun he => hm (he ▸ hi)
    simp [hne]

/-- With an empty added set the add loop does nothing. -/
theorem addLoop_empty (now : Nat) :
    ∀ (snap : List CampaignSnap) (db : DB) (n : Nat),
    addLoop ∅ now snap db n = .ok (db, n) := by
  intro snap
  induction snap with
  | nil => intro db n; rfl
  | cons c rest ih =>
    intro db n
    rw [addLoop, if_neg (Finset.not_mem_empty c.id)]
    exact ih db n

/-- When every snapshot entry matches the stored name and status, the
update loop does nothing. -/
theorem updLoop_noop {current : List CampaignRow} {now : Nat} :
    ∀ {snap : List CampaignSnap} {db : DB} {n : Nat},
    (∀ c ∈ snap, ∀ cur, current.find? (fun x => x.id == c.id) = some cur →
      cur.name = c.name ∧ cur.status = c.status) →
    updLoop current now snap db n = .ok (db, n) := by
  intro snap
  induction snap with
  | nil => intro db n _; rfl
  | cons c rest ih =>
    intro db n hno
    rw [updLoop]
    cases hf : current.find? (fun x => x.id == c.id) with
    | none => exact ih (fun c' hc' => hno c' (List.mem_cons_of_mem _ hc'))
    | some cur =>
      have heq := hno c (List.mem_cons_self _ _) cur hf
      simp only []
      rw [if_neg (by push_neg; exact heq)]
      exact ih (fun c' hc' => hno c' (List.mem_cons_of_mem _ hc'))

/-- After a successful update loop, a snapshot entry whose id has an
active stored row matching the captured dict ends up with the snapshot's
name and status (snapshot ids pairwise distinct). -/
theorem updLoop_ok_lookup {current : List CampaignRow} {now : Nat} :
    ∀ {snap : List CampaignSnap} {db : DB} {n : Nat} {db2 : DB} {n2 : Nat},
    (snap.map (fun c => c.id)).Nodup →
    updLoop current now snap db n = .ok (db2, n2) →
    ∀ c ∈ snap, ∀ cur, current.find? (fun x => x.id == c.id) = some cur →
    ∀ r0, db.campaigns.find? (fun x => x.isActive && x.id == c.id) = some r0 →
    r0.name = cur.name → r0.status = cur.status →
    ∃ r', db2.campaigns.find? (fun x => x.isActive && x.id == c.id) = some r' ∧
      r'.name = c.name ∧ r'.status = c.status := by
  intro snap
  induction snap with
  | nil =>
    intro _ _ _ _ _ _ c hc
    exact absurd hc (List.not_mem_nil c)
  | cons c0 rest ih =>
    intro db n db2 n2 hnd h c hc cur hfcur r0 h0 hname hstat
    rw [updLoop] at h
    have hndr : (rest.map (fun x => x.id)).Nodup := (List.nodup_cons.1 hnd).2
    rcases List.mem_cons.1 hc with rfl | hcr
    · -- the processed entry is the target
      rw [hfcur] at h
      simp only [] at h
      have hskip : ∀ c' ∈ rest, c'.id = c.id →
          current.find? (fun x => x.id == c'.id) = none := by
        intro c' hc' he
        have hmm : c.id ∈ rest.map (fun y => y.id) := by
          rw [← he]
          exact List.mem_map.2 ⟨c', hc', rfl⟩
        exact absurd hmm (List.nodup_cons.1 hnd).1
      have hr0id : r0.id = c.id := by
        have := List.find?_some h0
        simp only [Bool.and_eq_true, beq_iff_eq] at this
        exact this.2
      by_cases hd : cur.name ≠ c.name ∨ cur.status ≠ c.status
      · rw [if_pos hd, insertChangeLog_valid_ok _ _ _ (by decide)] at h
        simp only [] at h
        have hpres := updLoop_ok_find?_pres (i := c.id)
          (p := fun x => x.isActive && x.id == c.id)
          (fun c' a => rfl)
          (fun a hpa => by
            simp only [Bool.and_eq_true, beq_iff_eq] at hpa
            exact hpa.2) h hskip
        refine ⟨{ r0 with name := c.name, status := c.status, lastUpdated := now }, ?_, rfl, rfl⟩
        rw [hpres]
        have hmp : (db.campaigns.map (fun r =>
            if r.id = c.id then
              { r with name := c.name, status := c.status, lastUpdated := now }
            else r)).find? (fun x => x.isActive && x.id == c.id) =
            (db.campaigns.find? (fun x => x.isActive && x.id == c.id)).map
              (fun r => if r.id = c.id then
                { r with name := c.name, status := c.status, lastUpdated := now }
              else r) := by
          apply find?_map_pres
          intro a
          by_cases ha : a.id = c.id
          · rw [if_pos ha]
          · rw [if_neg ha]
        rw [hmp, h0, Option.map_some', if_pos hr0id]
      · rw [if_neg hd] at h
        push_neg at hd
        have hpres := updLoop_ok_find?_pres (i := c.id)
          (p := fun x => x.isActive && x.id == c.id)
          (fun c' a => rfl)
          (fun a hpa => by
            simp only [Bool.and_eq_true, beq_iff_eq] at hpa
            exact hpa.2) h hskip
        exact ⟨r0, by rw [hpres, h0], hname.trans hd.1, hstat.trans hd.2⟩
    · -- the processed entry differs from the target
      have hne : c0.id ≠ c.id := by
        intro he
        have hmm : c.id ∈ rest.map (fun y => y.id) :=
          List.mem_map.2 ⟨c, hcr, rfl⟩
        rw [← he] at hmm
        exact absurd hmm (List.nodup_cons.1 hnd).1
      cases hf0 : current.find? (fun x => x.id == c0.id) with
      | none =>
        rw [hf0] at h
        simp only [] at h
        exact ih hndr h c hcr cur hfcur r0 h0 hname hstat
      | some cur0 =>
        rw [hf0] at h
        simp only [] at h
        by_cases hd : cur0.name ≠ c0.name ∨ cur0.status ≠ c0.status
        · rw [if_pos hd, insertChangeLog_valid_ok _ _ _ (by decide)] at h
          simp only [] at h
          refine ih hndr h c hcr cur hfcur r0 ?_ hname hstat
          have hmp : (db.campaigns.map (fun r =>
              if r.id = c0.id then
                { r with name := c0.name, status := c0.status, lastUpdated := now }
              else r)).find? (fun x => x.isActive && x.id == c.id) =
              db.campaigns.find? (fun x => x.isActive && x.id == c.id) := by
            apply find?_map_pres_id
            · intro a
              by_cases ha : a.id = c0.id
              · rw [if_pos ha]
              · rw [if_neg ha]
            · intro a hpa
              have : a.id = c.id := by
                simp only [Bool.and_eq_true, beq_iff_eq] at hpa
                exact hpa.2
              rw [if_neg (by rw [this]; exact fun he => hne he.symm)]
          rw [hmp]
          exact h0
        · rw [if_neg hd] at h
          exact ih hndr h c hcr cur hfcur r0 h0 hname hstat

/-- After a successful reconciliation, every snapshot entry has an
active stored row carrying the snapshot's name and status. -/
theorem update_campaigns_ok_lookupActive {db : DB}
    {snap : List CampaignSnap} {now : Nat} {db' : DB}
    {stats : CampaignStats}
    (hnd : (snap.map (fun c => c.id)).Nodup)
    (h1 : update_campaigns db snap now = .ok (db', stats)) :
    ∀ c ∈ snap, ∃ r',
      db'.campaigns.find? (fun x => x.isActive && x.id == c.id) = some r' ∧
      r'.name = c.name ∧ r'.status = c.status := by
  obtain ⟨db1, n1, db2, n2, db3, n3, ha, hrm, hu, hcamp', -, -⟩ :=
    update_campaigns_ok_elim h1
  obtain ⟨hcamp2, -⟩ := removeLoop_ok_spec hrm
  intro c hc
  have hcsnap : c.id ∈ snapshotIds snap :=
    List.mem_toFinset.2 (List.mem_map.2 ⟨c, hc, rfl⟩)
  by_cases hcur : c.id ∈ currentCampaignIds db
  · -- the id already had an active row
    have h0 : ∃ r0, db.campaigns.find?
        (fun x => x.isActive && x.id == c.id) = some r0 := by
      rcases mem_currentCampaignIds.1 hcur with ⟨r0, hr0, hact0, hid0⟩
      cases hF : db.campaigns.find? (fun x => x.isActive && x.id == c.id) with
      | some r0' => exact ⟨r0', rfl⟩
      | none =>
        rw [List.find?_eq_none] at hF
        exact absurd (by simp [hact0, hid0]) (hF r0 hr0)
    rcases h0 with ⟨r0, h0⟩
    have hfcur : (activeCampaigns db).find? (fun x => x.id == c.id) = some r0 := by
      rw [activeCampaigns, find?_filter_comm]
      exact h0
    have hA : db1.campaigns.find? (fun x => x.isActive && x.id == c.id) =
        some r0 := by
      rw [addLoop_ok_campaigns ha]
      exact find?_append_some _ h0
    have hnotrm : c.id ∉ removedList snap db := fun hmem =>
      (mem_removedList.1 hmem).2 hcsnap
    have hB : db2.campaigns.find? (fun x => x.isActive && x.id == c.id) =
        some r0 := by
      rw [hcamp2, deact_pActive_pres hnotrm]
      exact hA
    rcases updLoop_ok_lookup hnd hu c hc r0 hfcur r0 hB rfl rfl with
      ⟨r', hr', hn, hs⟩
    exact ⟨r', by rw [hcamp']; exact hr', hn, hs⟩
  · -- the id is freshly inserted
    have hadd : c.id ∈ addedCampaigns snap db :=
      Finset.mem_sdiff.2 ⟨hcsnap, hcur⟩
    have h0 : db.campaigns.find? (fun x => x.isActive && x.id == c.id) =
        none := by
      rw [List.find?_eq_none]
      intro r hrm2 hp
      simp only [Bool.and_eq_true, beq_iff_eq] at hp
      exact hcur (mem_currentCampaignIds.2 ⟨r, hrm2, hp.1, hp.2⟩)
    have hA : db1.campaigns.find? (fun x => x.isActive && x.id == c.id) =
        some (newCampaignRow now c) := by
      rw [addLoop_ok_campaigns ha, find?_append_none _ h0]
      exact find?_newRows hnd hc hadd
    have hnotrm : c.id ∉ removedList snap db := fun hmem =>
      hcur (mem_removedList.1 hmem).1
    have hB : db2.campaigns.find? (fun x => x.isActive && x.id == c.id) =
        some (newCampaignRow now c) := by
      rw [hcamp2, deact_pActive_pres hnotrm]
      exact hA
    have hskip : ∀ c' ∈ snap, c'.id = c.id →
        (activeCampaigns db).find? (fun x => x.id == c'.id) = none := by
      intro c' hc' he
      rw [he, activeCampaigns, find?_filter_comm]
      exact h0
    have hC := updLoop_ok_find?_pres (i := c.id)
      (p := fun x => x.isActive && x.id == c.id)
      (fun c' a => rfl)
      (fun a hpa => by
        simp only [Bool.and_eq_true, beq_iff_eq] at hpa
        exact hpa.2) hu hskip
    exact ⟨newCampaignRow now c, by rw [hcamp', hC]; exact hB, rfl, rfl⟩

/-- After a successful reconciliation, the ids of the active campaign
rows are exactly the snapshot ids. -/
theorem update_campaigns_ok_activeIds {db : DB}
    {snap : List CampaignSnap} {now : Nat} {db' : DB}
    {stats : CampaignStats}
    (hnd : (snap.map (fun c => c.id)).Nodup)
    (h1 : update_campaigns db snap now = .ok (db', stats)) :
    currentCampaignIds db' = snapshotIds snap := by
  obtain ⟨db1, n1, db2, n2, db3, n3, ha, hrm, hu, hcamp', -, -⟩ :=
    update_campaigns_ok_elim h1
  obtain ⟨hcamp2, -⟩ := removeLoop_ok_spec hrm
  ext i
  constructor
  · intro hmem
    by_contra hni
    -- the lookup for i ends up none, contradicting the active row
    have hnone : db'.campaigns.find? (fun x => x.isActive && x.id == i) =
        none := by
      have hskip : ∀ c' ∈ snap, c'.id = i →
          (activeCampaigns db).find? (fun x => x.id == c'.id) = none := by
        intro c' hc' he
        exact absurd (he ▸ List.mem_toFinset.2 (List.mem_map.2 ⟨c', hc', rfl⟩))
          hni
      have hC := updLoop_ok_find?_pres (i := i)
        (p := fun x => x.isActive && x.id == i)
        (fun c' a => rfl)
        (fun a hpa => by
          simp only [Bool.and_eq_true, beq_iff_eq] at hpa
          exact hpa.2) hu hskip
      rw [hcamp', hC]
      by_cases hcur : i ∈ currentCampaignIds db
      · -- originally active: it is soft-deleted by the remove loop
        have hmemrm : i ∈ removedList snap db :=
          mem_removedList.2 ⟨hcur, hni⟩
        rw [hcamp2]
        exact deact_pActive_none hmemrm _
      · -- not active before: neither the stored rows nor the inserted
        -- rows produce an active row with this id
        have h0 : db.campaigns.find? (fun x => x.isActive && x.id == i) =
            none := by
          rw [List.find?_eq_none]
          intro r hrm2 hp
          simp only [Bool.and_eq_true, beq_iff_eq] at hp
          exact hcur (mem_currentCampaignIds.2 ⟨r, hrm2, hp.1, hp.2⟩)
        have hA : db1.campaigns.find? (fun x => x.isActive && x.id == i) =
            none := by
          rw [addLoop_ok_campaigns ha, find?_append_none _ h0,
            List.find?_eq_none]
          intro b hb hp
          rcases List.mem_map.1 hb with ⟨cc, hcc, rfl⟩
          have hcid : cc.id = i := by
            simp only [newCampaignRow, Bool.and_eq_true, beq_iff_eq] at hp
            exact hp.2
          exact hni (hcid ▸ List.mem_toFinset.2 (List.mem_map.2
            ⟨cc, List.mem_of_mem_filter hcc, rfl⟩))
        have hnotrm : i ∉ removedList snap db := fun hmem =>
          hcur (mem_removedList.1 hmem).1
        rw [hcamp2, deact_pActive_pres hnotrm]
        exact hA
    rcases mem_currentCampaignIds.1 hmem with ⟨r, hr, hact, hid⟩
    rw [List.find?_eq_none] at hnone
    exact absurd (by simp [hact, hid]) (hnone r hr)
  · intro hmem
    rcases List.mem_map.1 (List.mem_toFinset.1 hmem) with ⟨c, hc, rfl⟩
    rcases update_campaigns_ok_lookupActive hnd h1 c hc with ⟨r', hr', -, -⟩
    have hp := List.find?_some hr'
    simp only [Bool.and_eq_true, beq_iff_eq] at hp
    exact mem_currentCampaignIds.2
      ⟨r', List.mem_of_find?_eq_some hr', hp.1, hp.2⟩

/-- C4 (amended).  For snapshots whose campaign ids are pairwise
distinct, a successful reconciliation followed by a second run with the
identical snapshot yields zero added/removed/updated counts on the
second call and appends no change-log entry. -/
theorem update_campaigns_idempotent (db : DB) (snap : List CampaignSnap)
    (now1 now2 : Nat) (db' : DB) (stats1 : CampaignStats)
    (hnd : (snap.map (fun c => c.id)).Nodup)
    (h1 : update_campaigns db snap now1 = .ok (db', stats1)) :
    ∃ db'' stats2, update_campaigns db' snap now2 = .ok (db'', stats2) ∧
      stats2.campaignsAdded = 0 ∧ stats2.campaignsRemoved = 0 ∧
      stats2.campaignsUpdated = 0 ∧ db''.changeLog = db'.changeLog := by
  have hids := update_campaigns_ok_activeIds hnd h1
  have hadded : addedCampaigns snap db' = ∅ := by
    rw [addedCampaigns, hids, Finset.sdiff_self]
  have hremnil : removedList snap db' = [] := by
    rw [removedList, List.filter_eq_nil_iff]
    intro a ha
    have hmem : a ∈ currentCampaignIds db' :=
      List.mem_toFinset.2 (List.mem_dedup.1 ha)
    rw [hids] at hmem
    simp [hmem]
  have hnoop : ∀ c ∈ snap, ∀ cur,
      (activeCampaigns db').find? (fun x => x.id == c.id) = some cur →
      cur.name = c.name ∧ cur.status = c.status := by
    intro c hc cur hf
    rcases update_campaigns_ok_lookupActive hnd h1 c hc with ⟨r', hr', hn, hs⟩
    have hf' : (activeCampaigns db').find? (fun x => x.id == c.id) = some r' := by
      rw [activeCampaigns, find?_filter_comm]
      exact hr'
    rw [hf'] at hf
    cases hf
    exact ⟨hn, hs⟩
  have hrun : update_campaigns db' snap now2 =
      .ok ({ db' with syncHistory := db'.syncHistory ++
              [{ id := db'.syncHistory.length + 1, syncType := "incremental",
                 campaignsProcessed := snap.length, campaignsAdded := 0,
                 campaignsRemoved := 0, timestamp := now2 }] },
           { campaignsAdded := 0, campaignsRemoved := 0,
             campaignsUpdated := 0 }) := by
    rw [update_campaigns, hadded, addLoop_empty]
    simp only []
    rw [hremnil]
    simp only [removeLoop]
    rw [updLoop_noop hnoop]
  exact ⟨_, _, hrun, rfl, rfl, rfl, rfl⟩

/-- Two reconciliations of the same snapshot in a row, as the
idempotence property describes, returning the second call's stats. -/
def runUpdateTwice (db : DB) (snap : List CampaignSnap) :
    Option CampaignStats :=
  match update_campaigns db snap 1 with
  | .ok (db', _) =>
    match update_campaigns db' snap 2 with
    | .ok (_, s2) => some s2
    | .error _ => none
  | .error _ => none

/-- A store with a single active campaign, name `x`. -/
def cxDupDB : DB :=
  { campaigns := [{ id := "A", name := "x", status := "running",
                    createdAt := 0, lastUpdated := 0, isActive := true }] }

/-- A snapshot carrying the same campaign id twice with different
names. -/
def cxDupSnap : List CampaignSnap :=
  [{ id := "A", name := "x", status := "running" },
   { id := "A", name := "y", status := "running" }]

/-- C4, counterexample.  With a duplicate campaign id in the
snapshot, the first reconciliation succeeds but the second run on the
identical snapshot performs (and logs) one more `campaign_updated`
mutation: the claim fails for arbitrary snapshots. -/
theorem update_campaigns_idem_cx :
    runUpdateTwice cxDupDB cxDupSnap =
      some { campaignsAdded := 0, campaignsRemoved := 0,
             campaignsUpdated := 1 } := by decide

/-- The store produced by reconciling the one-campaign snapshot into an
empty store at time 1 (the C4 witness's first run). -/
def cxIdemDB : DB :=
  { campaigns := [{ id := "A", name := "X", status := "running",
                    createdAt := 1, lastUpdated := 1, isActive := true }],
    changeLog := [{ id := 1, changeType := "campaign_added",
                    campaignId := some "A", campaignName := some "X",
                    timestamp := 1 }],
    syncHistory := [{ id := 1, syncType := "incremental",
                      campaignsProcessed := 1, campaignsAdded := 1,
                      timestamp := 1 }] }

/-- C4, witness: a successful duplicate-free first run, and its
second run adds, removes, updates and logs nothing. -/
theorem update_campaigns_idempotent_witness :
    ∃ db'' stats2, update_campaigns cxIdemDB
        [{ id := "A", name := "X", status := "running" }] 2 =
        .ok (db'', stats2) ∧
      stats2.campaignsAdded = 0 ∧ stats2.campaignsRemoved = 0 ∧
      stats2.campaignsUpdated = 0 ∧ db''.changeLog = cxIdemDB.changeLog :=
  update_campaigns_idempotent {}
    [{ id := "A", name := "X", status := "running" }] 1 2 cxIdemDB
    { campaignsAdded := 1, campaignsRemoved := 0, campaignsUpdated := 0 }
    (by decide) (by rfl)

/-! ### C9 — the lead reconciliation's company-count logging -/

/-- The stored active lead of campaign `A` in the C9 failing input. -/
def cxLeadRow : LeadRow :=
  { id := "L1", campaignId := "A", email := none, firstName := none,
    lastName := none, companyName := some "Acme", jobTitle := none,
    linkedinUrl := none, state := none, stateSystem := none,
    createdAt := 0, lastUpdated := 0, isActive := true }

/-- The C9 failing-input store. -/
def cxLeadDB : DB := { leads := [cxLeadRow] }

/-- The C9 failing-input snapshot: the stored lead plus one new lead
with a new company. -/
def cxNewLeads : List LeadSnap :=
  [{ id := "L1", companyName := some "Acme" },
   { id := "L2", companyName := some "Beta" }]

/-- C9, code-bug evidence.  On a snapshot that adds one lead with a
new company, the distinct-company count rises by 1, so the claim (and
the spec) call for the lead to be inserted and a `company_count_changed`
entry to be appended.  Instead the `lead_added` change-log `INSERT`
references the nonexistent `details` column, SQLite raises, the
transaction rolls back, and `track_lead_changes` returns the all-zero
changes dict with the store untouched. -/
theorem track_lead_changes_details_bug :
    ((newCompanyCount cxNewLeads : Int) -
      (oldCompanyCount (cxLeadDB.leads.filter
        (fun l => l.campaignId == "A" && l.isActive)) : Int)) = 1 ∧
    track_lead_changes "A" "Camp" cxNewLeads 5 cxLeadDB =
      (zeroLeadChanges, cxLeadDB) :=
  ⟨by decide, by decide⟩

end PushActivity
